import Mathlib

/-! ahttp: RPC-to-HTTP status translation and request reports

A shallow embedding of the Go package `ahttp` (files `rpc_to_http.go`,
`report.go`, `messages/report.go`) together with the properties its
specification states about it.

Conventions of the embedding

* Go `int` values (HTTP status codes) are `Int`; `codes.Code` (a `uint32`) is a `Nat`.
* Go strings are `String`; Go's `<` on strings is bytewise, which on well-formed
  UTF-8 agrees with the code-point order of `String`.
* A Go map is an association list with pairwise distinct keys; the order in which
  the runtime iterates over a map is an explicit parameter.
* A Go panic is the `panicked` outcome of a call.
* The libraries the package calls (gin, grpc `codes`/`status`, `net/url`, `time`,
  lipgloss) are embedded as far as the package uses them.
-/

namespace Ahttp

/-! ## grpc `codes` -/

/-- The type `codes.Code` of grpc, an unsigned 32-bit number. -/
abbrev Code := Nat

namespace codes

def OK : Code := 0
def Canceled : Code := 1
def Unknown : Code := 2
def InvalidArgument : Code := 3
def DeadlineExceeded : Code := 4
def NotFound : Code := 5
def AlreadyExists : Code := 6
def PermissionDenied : Code := 7
def ResourceExhausted : Code := 8
def FailedPrecondition : Code := 9
def Aborted : Code := 10
def OutOfRange : Code := 11
def Unimplemented : Code := 12
def Internal : Code := 13
def Unavailable : Code := 14
def DataLoss : Code := 15
def Unauthenticated : Code := 16

end codes

/-! ## `net/http` status constants -/

namespace http

def StatusOK : Int := 200
def StatusBadRequest : Int := 400
def StatusUnauthorized : Int := 401
def StatusForbidden : Int := 403
def StatusNotFound : Int := 404
def StatusConflict : Int := 409
def StatusUnprocessableEntity : Int := 422
def StatusTooManyRequests : Int := 429
def StatusInternalServerError : Int := 500
def StatusNotImplemented : Int := 501
def StatusServiceUnavailable : Int := 503
def StatusGatewayTimeout : Int := 504

end http

/-! ## rpc_to_http.go: the translation table -/

/-- The package-level table `rpcToHTTPCodes`, entry for entry. -/
def rpcToHTTPCodes : List (Code × Int) :=
  [ (codes.OK, http.StatusOK),
    (codes.Canceled, 499),
    (codes.InvalidArgument, http.StatusUnprocessableEntity),
    (codes.DeadlineExceeded, http.StatusGatewayTimeout),
    (codes.NotFound, http.StatusNotFound),
    (codes.AlreadyExists, http.StatusConflict),
    (codes.PermissionDenied, http.StatusForbidden),
    (codes.ResourceExhausted, http.StatusTooManyRequests),
    (codes.FailedPrecondition, http.StatusBadRequest),
    (codes.OutOfRange, http.StatusBadRequest),
    (codes.Unimplemented, http.StatusNotImplemented),
    (codes.Unavailable, http.StatusServiceUnavailable),
    (codes.Unauthenticated, http.StatusUnauthorized) ]

/-- The function `GRPCToHTTPCode`: the table entry when there is one, 500 otherwise. -/
def GRPCToHTTPCode (code : Code) : Int :=
  match rpcToHTTPCodes.lookup code with
  | some c => c
  | none => http.StatusInternalServerError

/-- The thirteen RPC codes the specification lists with an HTTP status of their own. -/
def listedCodes : List Code :=
  [ codes.OK, codes.Canceled, codes.InvalidArgument, codes.DeadlineExceeded,
    codes.NotFound, codes.AlreadyExists, codes.PermissionDenied,
    codes.ResourceExhausted, codes.FailedPrecondition, codes.OutOfRange,
    codes.Unimplemented, codes.Unavailable, codes.Unauthenticated ]

/-! ## Go values shared by the two components -/

/-- Go's `m[key] = value` on a map kept as an association list: the entry of an
existing key is replaced in place, a new key is added. -/
def mapSet {β : Type} : List (String × β) → String → β → List (String × β)
  | [], key, value => [(key, value)]
  | (k, v) :: rest, key, value =>
    if k = key then (k, value) :: rest else (k, v) :: mapSet rest key value

/-- Go's `m[key]` with the comma-ok result. -/
def mapGet {β : Type} (m : List (String × β)) (key : String) : Option β :=
  m.lookup key

/-- Decimal text of an `int`, as `%v` and `%d` print it. -/
def Itoa (n : Int) : String :=
  match n with
  | Int.ofNat k => Nat.repr k
  | Int.negSucc k => "-" ++ Nat.repr (k + 1)

/-- The method `String` of `codes.Code`. -/
def Code.String (c : Code) : String :=
  match c with
  | 0 => "OK"
  | 1 => "Canceled"
  | 2 => "Unknown"
  | 3 => "InvalidArgument"
  | 4 => "DeadlineExceeded"
  | 5 => "NotFound"
  | 6 => "AlreadyExists"
  | 7 => "PermissionDenied"
  | 8 => "ResourceExhausted"
  | 9 => "FailedPrecondition"
  | 10 => "Aborted"
  | 11 => "OutOfRange"
  | 12 => "Unimplemented"
  | 13 => "Internal"
  | 14 => "Unavailable"
  | 15 => "DataLoss"
  | 16 => "Unauthenticated"
  | n => "Code(" ++ Nat.repr n ++ ")"

/-! ## grpc `status` and Go errors -/

/-- A non-nil `*status.Status`: an RPC code and a message. -/
structure Status where
  code : Code
  message : String
deriving DecidableEq, Repr

/-- Go `error` values, as far as `status.FromError` tells them apart.

* `plain msg`: an error without a `GRPCStatus` method that wraps nothing;
* `grpc s`: an error whose `GRPCStatus()` returns the non-nil status `s`
  (what `status.Error` and `Status.Err` build, or any type with that method);
* `nilStatus msg`: an error whose `GRPCStatus()` returns nil;
* `wrap msg inner`: an error without the method that wraps `inner`
  (`fmt.Errorf` with `%w`), `msg` being its whole text;
* `gin inner`: a `*gin.Error` whose field `Err` is `inner`; it has no `GRPCStatus`
  method, its text is that of `inner`, and `Unwrap` gives `inner`.

The first three wrap nothing. -/
inductive GoError where
  | plain (msg : String)
  | grpc (s : Status)
  | nilStatus (msg : String)
  | wrap (msg : String) (inner : GoError)
  | gin (inner : GoError)
deriving DecidableEq, Repr

/-- The method `Error()` of an error: its text. -/
def GoError.Error : GoError → String
  | .plain msg => msg
  | .grpc s => "rpc error: code = " ++ Code.String s.code ++ " desc = " ++ s.message
  | .nilStatus msg => msg
  | .wrap msg _ => msg
  | .gin inner => inner.Error

/-- What `errors.As` finds when it looks for a `GRPCStatus` method along the chain
of `err`: nothing, or the result of the first such method (`none` being nil). -/
def GoError.asGRPCStatus : GoError → Option (Option Status)
  | .plain _ => none
  | .grpc s => some (some s)
  | .nilStatus _ => some none
  | .wrap _ inner => inner.asGRPCStatus
  | .gin inner => inner.asGRPCStatus

/-- What `errors.As` finds when it looks for a `*gin.Error` along the chain of `err`:
nothing, or the field `Err` of the first one. -/
def GoError.asGinError : GoError → Option GoError
  | .plain _ => none
  | .grpc _ => none
  | .nilStatus _ => none
  | .wrap _ inner => inner.asGinError
  | .gin inner => some inner

/-- Whether `err`, not being a `*gin.Error` itself, has one further down its chain. -/
def GoError.wrapsGinError : GoError → Bool
  | .wrap _ inner => inner.asGinError.isSome
  | _ => false

namespace status

/-- `Status.Code`: the code of a status, `OK` for the nil status. -/
def Code (s : Option Status) : Ahttp.Code :=
  match s with
  | none => codes.OK
  | some st => st.code

/-- `Status.Err`: "returns nil if s.Code() is OK", otherwise an error carrying `s`. -/
def Err (s : Option Status) : Option GoError :=
  match s with
  | none => none
  | some st => if st.code = codes.OK then none else some (GoError.grpc st)

/-- `status.FromError`, following its documentation: nil gives the nil status and
true; an error with a non-nil `GRPCStatus()` gives that status and true; an error
that wraps one gives a status with the wrapped code and the whole text of `err`, and
true; every other error gives an `Unknown` status with the text of `err`, and false. -/
def FromError (err : Option GoError) : Option Status × Bool :=
  match err with
  | none => (none, true)
  | some (GoError.grpc s) => (some s, true)
  | some (GoError.nilStatus msg) => (some ⟨codes.Unknown, msg⟩, false)
  | some (GoError.plain msg) => (some ⟨codes.Unknown, msg⟩, false)
  | some (GoError.wrap msg inner) =>
    match inner.asGRPCStatus with
    | some (some s) => (some ⟨s.code, msg⟩, true)
    | _ => (some ⟨codes.Unknown, msg⟩, false)
  | some (GoError.gin inner) =>
    match inner.asGRPCStatus with
    | some (some s) => (some ⟨s.code, inner.Error⟩, true)
    | _ => (some ⟨codes.Unknown, inner.Error⟩, false)

end status

/-! ## The gin exchange -/

/-- The `*gin.Context` of one exchange, as far as this package reads and writes it:
the request (method, protocol, decoded query pairs in URL order, headers), what gin's
accessors `FullPath`, `ClientIP`, `ContentType` and `Request.UserAgent` return, and
the response state: the status code of `Writer.Status()`, whether the response has
been written (`Writer.Written()`), whether the handler chain is aborted, and the
`Err` fields of the errors attached so far. -/
structure Context where
  Method : String
  Proto : String
  fullPath : String
  clientIP : String
  contentType : String
  userAgent : String
  Header : List (String × List String)
  rawQuery : List (String × String)
  status : Int
  written : Bool
  aborted : Bool
  Errors : List GoError
deriving DecidableEq, Repr

/-- The result of a call that may panic, with the exchange as the call left it. -/
inductive Outcome (α : Type) where
  | returned (value : α) (ctx : Context)
  | panicked (reason : String) (ctx : Context)
deriving DecidableEq, Repr

namespace Context

/-- `Writer.WriteHeader`: sets the status code, unless the code is not positive, is
the current one, or the response has been written already. -/
def WriteHeader (c : Context) (code : Int) : Context :=
  if code > 0 ∧ c.status ≠ code then
    if c.written then c else { c with status := code }
  else c

/-- `Writer.WriteHeaderNow`: writes the header if the response is not written yet. -/
def WriteHeaderNow (c : Context) : Context :=
  if !c.written then { c with written := true } else c

/-- `Context.Abort`: keeps the pending handlers from being called. -/
def Abort (c : Context) : Context :=
  { c with aborted := true }

/-- `Context.AbortWithStatus`: `Status(code)`, `Writer.WriteHeaderNow()`, `Abort()`. -/
def AbortWithStatus (c : Context) (code : Int) : Context :=
  ((c.WriteHeader code).WriteHeaderNow).Abort

/-- `Context.Error`: panics if `err` is nil; otherwise attaches the `*gin.Error` that
`errors.As` finds in the chain of `err`, or, when there is none, a new one with `err`
as its `Err`. The result is the `Err` field of what was attached. -/
def Error (c : Context) (err : Option GoError) : Outcome GoError :=
  match err with
  | none => Outcome.panicked "err is nil" c
  | some e =>
    let parsedError :=
      match e.asGinError with
      | some inner => inner
      | none => e
    Outcome.returned parsedError { c with Errors := c.Errors ++ [parsedError] }

/-- `Context.AbortWithError`: `AbortWithStatus(code)` followed by `Error(err)`. -/
def AbortWithError (c : Context) (code : Int) (err : Option GoError) : Outcome GoError :=
  (c.AbortWithStatus code).Error err

/-- `Context.GetHeader`: the first value of the header, the empty string when the
header is absent. -/
def GetHeader (c : Context) (key : String) : String :=
  match c.Header.lookup key with
  | some (v :: _) => v
  | _ => ""

/-- `c.Errors.Errors()`: the texts of the attached errors, in the order attached; the
text of a `*gin.Error` is the text of its `Err`. -/
def ErrorsErrors (c : Context) : List String :=
  c.Errors.map GoError.Error

end Context

/-! ## rpc_to_http.go: `HandleGRPCError` -/

/-- The function `HandleGRPCError`. -/
def HandleGRPCError (ctx : Context) (err : Option GoError) : Outcome Bool :=
  if err = none then
    Outcome.returned false ctx
  else
    let (grpcCode, ok) := status.FromError err
    if !ok then
      match ctx.AbortWithError http.StatusInternalServerError err with
      | Outcome.returned _ ctx' => Outcome.returned true ctx'
      | Outcome.panicked reason ctx' => Outcome.panicked reason ctx'
    else
      match ctx.AbortWithError (GRPCToHTTPCode (status.Code grpcCode)) (status.Err grpcCode) with
      | Outcome.returned _ ctx' => Outcome.returned true ctx'
      | Outcome.panicked reason ctx' => Outcome.panicked reason ctx'

/-! ## Strings: comparison, sorting, splitting, joining -/

/-- Lexicographic `<` on character sequences, character by character. -/
def lessChars : List Char → List Char → Bool
  | _, [] => false
  | [], _ :: _ => true
  | a :: as, b :: bs =>
    if a.toNat < b.toNat then true
    else if b.toNat < a.toNat then false
    else lessChars as bs

/-- Go's `a < b` on strings. -/
def stringLess (a b : String) : Bool :=
  lessChars a.data b.data

/-- `sort.Strings`: the slice in increasing order. Equal strings cannot be told
apart, so every sorting algorithm gives the same slice. -/
def sortStrings (l : List String) : List String :=
  l.insertionSort (fun a b => stringLess b a = false)

/-- `strings.Join`. -/
def Join (elems : List String) (sep : String) : String :=
  match elems with
  | [] => ""
  | first :: rest => rest.foldl (fun acc e => acc ++ sep ++ e) first

/-- The pieces of a character sequence between the occurrences of `sep`. -/
def splitChars (sep : Char) : List Char → List (List Char)
  | [] => [[]]
  | c :: cs =>
    if c = sep then [] :: splitChars sep cs
    else
      match splitChars sep cs with
      | [] => [[c]]
      | piece :: pieces => (c :: piece) :: pieces

/-- `strings.Split(s, sep)` for a separator of one character. -/
def Split (s : String) (sep : Char) : List String :=
  (splitChars sep s.data).map String.mk

/-! ## `time` -/

/-- A `time.Time`, as nanoseconds since the Unix epoch. -/
structure Time where
  unixNano : Int
deriving DecidableEq, Repr

/-- A `time.Duration`: a signed 64-bit count of nanoseconds. -/
abbrev Duration := Int

/-- The helper `fmtFrac` of package `time`: the last `prec` decimal digits of `v` as
a fraction, trailing zeros and a then useless point left out, put in front of `acc`;
returned with `v / 10^prec`. -/
def fmtFrac : Nat → Nat → Bool → List Char → List Char × Nat
  | 0, v, print, acc => (if print then '.' :: acc else acc, v)
  | prec + 1, v, print, acc =>
    let digit := v % 10
    let print' := print || digit != 0
    fmtFrac prec (v / 10) print' (if print' then Char.ofNat (digit + 48) :: acc else acc)

/-- The helper `fmtInt` of package `time`: the decimal digits of `v` in front of `acc`. -/
def fmtInt (v : Nat) (acc : List Char) : List Char :=
  (Nat.repr v).data ++ acc

/-- The method `String` of `time.Duration`: `"0s"`, a sub-second value in ns, µs or
ms, otherwise hours, minutes and seconds as in `"1h2m3.5s"`. -/
def Duration.String (d : Duration) : String :=
  let u := d.natAbs
  let body : List Char :=
    if u < 1000000000 then
      if u = 0 then ['0', 's']
      else if u < 1000 then
        let (acc, v) := fmtFrac 0 u false ['n', 's']
        fmtInt v acc
      else if u < 1000000 then
        let (acc, v) := fmtFrac 3 u false ['µ', 's']
        fmtInt v acc
      else
        let (acc, v) := fmtFrac 6 u false ['m', 's']
        fmtInt v acc
    else
      let (acc, v) := fmtFrac 9 u false ['s']
      let acc1 := fmtInt (v % 60) acc
      let minutes := v / 60
      if minutes > 0 then
        let acc2 := fmtInt (minutes % 60) ('m' :: acc1)
        let hours := minutes / 60
        if hours > 0 then fmtInt hours ('h' :: acc2) else acc2
      else acc1
  String.mk (if d < 0 then '-' :: body else body)

/-! ## `net/url` -/

/-- The type `url.Values`, a `map[string][]string`. -/
abbrev Values := List (String × List String)

/-- `url.Values.Add`: `v[key] = append(v[key], value)`. -/
def Values.Add (v : Values) (key value : String) : Values :=
  mapSet v key ((mapGet v key).getD [] ++ [value])

/-- `Request.URL.Query()`: a fresh map on every call, each key with its values in
the order of the URL. -/
def Context.Query (c : Context) : Values :=
  c.rawQuery.foldl (fun m kv => Values.Add m kv.1 kv.2) []

/-! ## lipgloss, and what the runtime chooses -/

/-- The attributes of a `lipgloss.Style` this package sets. -/
structure Style where
  marginLeft : Nat
  foreground : Option String
  bold : Bool
  faint : Bool
deriving DecidableEq, Repr

/-- `lipgloss.NewStyle()`. -/
def NewStyle : Style :=
  ⟨0, none, false, false⟩

/-- What the package does not decide itself: how lipgloss renders a styled text on
the current terminal (`render`), how it lays out the query table of fixed width,
border and colours from its rows (`renderTable`), and the order in which the Go
runtime iterates over the keys of a map (`mapOrder`). -/
structure Env where
  render : Style → String → String
  renderTable : List (List String) → String
  mapOrder : List String → List String

/-- `strings.ReplaceAll(str, "\t", "    ")`: lipgloss turns every tab into four
blanks before it renders a text. -/
def expandTabs : List Char → List Char
  | [] => []
  | c :: cs =>
    if c = '\t' then ' ' :: ' ' :: ' ' :: ' ' :: expandTabs cs else c :: expandTabs cs

/-- `strings.ReplaceAll(str, "\r\n", "\n")`. -/
def replaceCRLF : List Char → List Char
  | c :: d :: ds =>
    if c = '\r' ∧ d = '\n' then '\n' :: replaceCRLF ds else c :: replaceCRLF (d :: ds)
  | l => l

/-- The alignment step of lipgloss for a text aligned to the left without a set width:
when the text has more than one line, every line is filled up with blanks to the
display width of the widest line. -/
def alignLines (width : List Char → Nat) (lines : List (List Char)) : List (List Char) :=
  if lines.length > 1 then
    let widest := (lines.map width).foldl max 0
    lines.map (fun l => l ++ List.replicate (widest - width l) ' ')
  else lines

/-- `Style.Render` of lipgloss on a terminal without colour profile, for a style that
sets nothing but colours, bold, faint and a left margin: tabs become four blanks,
`\r\n` becomes `\n`, the colours and attributes leave each line as it is, the lines
are aligned, and the left margin is put in front of every line. `width` is the
display width of a line. -/
def renderPlain (width : List Char → Nat) (st : Style) (text : String) : String :=
  let str := replaceCRLF (expandTabs text.data)
  let lines := alignLines width (splitChars '\n' str)
  let lines := lines.map (fun l => List.replicate st.marginLeft ' ' ++ l)
  String.mk (List.intercalate ['\n'] lines)

/-- The display width of a line whose characters take one cell each. -/
def narrowWidth (l : List Char) : Nat :=
  l.length

/-- A text of one line without tabs: what lipgloss renders unchanged. -/
def oneLine (s : String) : Prop :=
  '\t' ∉ s.data ∧ '\n' ∉ s.data

instance (s : String) : Decidable (oneLine s) :=
  inferInstanceAs (Decidable ('\t' ∉ s.data ∧ '\n' ∉ s.data))

/-- A terminal without colour profile, as in the package's tests, given the display
width of a line and the layout of a table; map keys come out in insertion order. -/
def testEnv (width : List Char → Nat) (table : List (List String) → String) : Env where
  render := renderPlain width
  renderTable := table
  mapOrder := fun keys => keys

/-- `lo.Keys`: the keys of the map, in the iteration order of the runtime. -/
def Keys (env : Env) (m : Values) : List String :=
  env.mapOrder (m.map Prod.fst)

/-! ## messages/report.go -/

/-- The type `Metrics`. -/
structure Metrics where
  Latency : Duration
  StartedAt : Time
deriving DecidableEq, Repr

/-- The type `reportMessage`; an absent `metrics` pointer is `none`. -/
structure reportMessage where
  metrics : Option Metrics
  projectID : String
  ginC : Context
deriving DecidableEq, Repr

/-- `NewReport`. -/
def NewReport (metrics : Option Metrics) (projectID : String) (ginC : Context) :
    reportMessage :=
  ⟨metrics, projectID, ginC⟩

/-- The local `errorMessage` of `RenderTerminal` after its loop. -/
def errorMessage (env : Env) (report : reportMessage) : String :=
  report.ginC.ErrorsErrors.foldl
    (fun acc err => acc ++ ("\n" ++
      env.render { NewStyle with marginLeft := 2, foreground := some "9" } ("- " ++ err)))
    ""

/-- The local `latencyMessage` of `RenderTerminal`. -/
def latencyMessage (env : Env) (report : reportMessage) : String :=
  match report.metrics with
  | none => ""
  | some m =>
    env.render { NewStyle with faint := true } (" (" ++ Duration.String m.Latency ++ ")")

/-- The rows given to `queryTable` by the loop of `RenderTerminal`: one `Row` call
for each key of the sorted key slice, with the sorted values of that key. -/
def queryRows (env : Env) (query : Values) : List (List String) :=
  (sortStrings (Keys env query)).map (fun key =>
    let values := sortStrings ((mapGet query key).getD [])
    ["  " ++ key, "  " ++ Join values "\n  "])

/-- The local `queryMessage` of `RenderTerminal`. -/
def queryMessage (env : Env) (report : reportMessage) : String :=
  let query := report.ginC.Query
  if query.length > 0 then "\n" ++ env.renderTable (queryRows env query) else ""

/-- The locals `color` and `prefix` of `RenderTerminal`. -/
def colorAndPrefix (statusCode : Int) : String × String :=
  if statusCode > 499 then ("9", "👶🔪🩸 ")
  else if statusCode > 399 then ("202", "⚠ ")
  else ("33", "✅ ")

/-- The method `RenderTerminal`. -/
def RenderTerminal (env : Env) (report : reportMessage) : String :=
  let statusCode := report.ginC.status
  let (color, pfx) := colorAndPrefix statusCode
  env.render { NewStyle with foreground := some color, bold := true } (pfx ++ Itoa statusCode) ++
    env.render { NewStyle with foreground := some color }
      (" [" ++ report.ginC.Method ++ " " ++ report.ginC.fullPath ++ "]") ++
    latencyMessage env report ++
    queryMessage env report ++
    errorMessage env report ++
    "\n\n"

/-- A value stored in the nested `httpRequest` map. -/
inductive Field where
  | str (s : String)
  | int (n : Int)
deriving DecidableEq, Repr

/-- A value stored in the map `RenderJSON` returns. -/
inductive Value where
  | str (s : String)
  | strs (l : List String)
  | values (v : Values)
  | time (t : Time)
  | object (m : List (String × Field))
deriving DecidableEq, Repr

/-- The key of the trace field. -/
def traceKey : String := "logging.googleapis.com/trace"

/-- The method `RenderJSON`. The map `httpRequest` is shared with `output`, so the
`latency` entry written after `output` is built is seen through `output`. -/
def RenderJSON (report : reportMessage) : List (String × Value) :=
  let statusCode := report.ginC.status
  let severity :=
    if statusCode > 499 then "ERROR"
    else if statusCode > 399 then "WARNING"
    else "INFO"
  let httpRequest : List (String × Field) :=
    [ ("requestMethod", Field.str report.ginC.Method),
      ("requestUrl", Field.str report.ginC.fullPath),
      ("status", Field.int statusCode),
      ("userAgent", Field.str report.ginC.userAgent),
      ("remoteIp", Field.str report.ginC.clientIP),
      ("protocol", Field.str report.ginC.Proto) ]
  let httpRequest :=
    match report.metrics with
    | none => httpRequest
    | some m => mapSet httpRequest "latency" (Field.str (Duration.String m.Latency))
  let output : List (String × Value) :=
    [ ("httpRequest", Value.object httpRequest),
      ("severity", Value.str severity),
      ("ip", Value.str report.ginC.clientIP),
      ("contentType", Value.str report.ginC.contentType),
      ("errors", Value.strs report.ginC.ErrorsErrors),
      ("query", Value.values report.ginC.Query) ]
  let output :=
    match report.metrics with
    | none => output
    | some m => mapSet output "start" (Value.time m.StartedAt)
  if report.projectID ≠ "" then
    let traceHeader := report.ginC.GetHeader "X-Cloud-Trace-Context"
    let traceParts := Split traceHeader '/'
    match traceParts with
    | first :: _ =>
      if first.utf8ByteSize > 0 then
        mapSet output traceKey
          (Value.str ("projects/" ++ report.projectID ++ "/traces/" ++ first))
      else output
    | [] => output
  else output

/-- The entry `key` of the nested `httpRequest` map of a rendering. -/
def httpRequestField (output : List (String × Value)) (key : String) : Option Field :=
  match mapGet output "httpRequest" with
  | some (Value.object m) => mapGet m key
  | _ => none

/-! ## report.go -/

/-- Modelled from the spec: the levels of the logger collaborator (package quicklog,
which is not part of these sources), the enumeration INFO, WARNING, ERROR. -/
inductive Level where
  | LevelInfo
  | LevelWarning
  | LevelError
deriving DecidableEq, Repr

/-- What the middleware does to its surroundings, in the order it does it: running
the rest of the handler chain, calling the logger. -/
inductive Event where
  | Next
  | Log (level : Level) (message : reportMessage)
deriving DecidableEq, Repr

/-- The handler `ReportMiddleware(logger, projectID)` returns, run on `ctx`. `next`
is what the rest of the chain does to the exchange, `start` what `time.Now()`
returns and `since` what `time.Since(start)` returns. The result is the exchange
afterwards and the calls made. -/
def ReportMiddleware (projectID : String) (next : Context → Context) (start : Time)
    (since : Duration) (ctx : Context) : Context × List Event :=
  let ctx := next ctx
  let events := [Event.Next]
  let level :=
    if ctx.status ≥ 500 then Level.LevelError
    else if ctx.status ≥ 400 then Level.LevelWarning
    else Level.LevelInfo
  (ctx, events ++ [Event.Log level (NewReport (some ⟨since, start⟩) projectID ctx)])

/-! ## Specification-side notions -/

/-- The part of a header value before its first `/` (all of it when it has none). -/
def firstSegment (header : String) : String :=
  String.mk (header.data.takeWhile (fun c => c != '/'))

/-- The first line of the terminal rendering up to the closing bracket: the styled
glyph and status code followed by the styled ` [METHOD PATH]`. -/
def statusLine (env : Env) (report : reportMessage) : String :=
  env.render
      { NewStyle with foreground := some (colorAndPrefix report.ginC.status).1, bold := true }
      ((colorAndPrefix report.ginC.status).2 ++ Itoa report.ginC.status) ++
    env.render { NewStyle with foreground := some (colorAndPrefix report.ginC.status).1 }
      (" [" ++ report.ginC.Method ++ " " ++ report.ginC.fullPath ++ "]")

/-- The values of `key` among the decoded query pairs, in the order of the URL. -/
def valuesInURL (pairs : List (String × String)) (key : String) : List String :=
  (pairs.filter (fun kv => kv.1 = key)).map Prod.snd

/-- The glyph in front of the status code, by the class of the status. -/
def glyph (statusCode : Int) : String :=
  if statusCode ≥ 500 then "👶🔪🩸"
  else if statusCode ≥ 400 then "⚠"
  else "✅"

/-- The severity of a status, by the two thresholds of the specification. -/
def severityOf (statusCode : Int) : String :=
  if statusCode ≥ 500 then "ERROR"
  else if statusCode ≥ 400 then "WARNING"
  else "INFO"

/-- The style of an error line: left margin 2, colour 9. -/
def errorStyle : Style :=
  { NewStyle with marginLeft := 2, foreground := some "9" }

/-! ## The renderings as calls on a shared report -/

/-- The `for` loop of `RenderTerminal` over the sorted keys, with its local state
explicit: the local map `query`, in which `sort.Strings(values)` sorts the values of
the current key in place, and the rows added to the table so far. -/
def queryLoop : List String → Values → List (List String) → Values × List (List String)
  | [], query, rows => (query, rows)
  | key :: keys, query, rows =>
    let values := sortStrings ((mapGet query key).getD [])
    let query' :=
      match mapGet query key with
      | some _ => mapSet query key values
      | none => query
    queryLoop keys query' (rows ++ [["  " ++ key, "  " ++ Join values "\n  "]])

/-- One call of `RenderTerminal`, step by step: the returned string together with the
report as the call leaves it. The map of `Request.URL.Query()` is local to the call;
nothing is written to the report. -/
def RenderTerminalRun (env : Env) (report : reportMessage) : String × reportMessage :=
  let errorMessage := errorMessage env report
  let latencyMessage := latencyMessage env report
  let query := report.ginC.Query
  let queryMessage :=
    if query.length > 0 then
      "\n" ++ env.renderTable (queryLoop (sortStrings (Keys env query)) query []).2
    else ""
  let statusCode := report.ginC.status
  let (color, pfx) := colorAndPrefix statusCode
  (env.render { NewStyle with foreground := some color, bold := true }
      (pfx ++ Itoa statusCode) ++
    env.render { NewStyle with foreground := some color }
      (" [" ++ report.ginC.Method ++ " " ++ report.ginC.fullPath ++ "]") ++
    latencyMessage ++ queryMessage ++ errorMessage ++ "\n\n", report)

/-- One call of `RenderJSON`: the returned map together with the report as the call
leaves it. The method only reads the report. -/
def RenderJSONRun (report : reportMessage) : List (String × Value) × reportMessage :=
  (RenderJSON report, report)

/-- The two renderings of a message. -/
inductive Call where
  | terminal
  | json
deriving DecidableEq, Repr

/-- What a rendering returns. -/
inductive Rendering where
  | text (s : String)
  | fields (m : List (String × Value))
deriving DecidableEq, Repr

/-- One rendering call on the report, the runtime iterating maps in order `order`
during the call. -/
def callRendering (env : Env) (order : List String → List String) (c : Call)
    (report : reportMessage) : Rendering × reportMessage :=
  match c with
  | Call.terminal =>
    let r := RenderTerminalRun { env with mapOrder := order } report
    (Rendering.text r.1, r.2)
  | Call.json =>
    let r := RenderJSONRun report
    (Rendering.fields r.1, r.2)

/-- A sequence of rendering calls on the same report, each with the map iteration
order the runtime happens to use then: the results in order, and the report at the
end. -/
def runCalls (env : Env) :
    List ((List String → List String) × Call) → reportMessage →
      List Rendering × reportMessage
  | [], report => ([], report)
  | (order, c) :: rest, report =>
    let r := callRendering env order c report
    let rs := runCalls env rest r.2
    (r.1 :: rs.1, rs.2)

/-! ## Properties of the translation -/

/-- C1: `GRPCToHTTPCode` returns exactly the listed HTTP status for each of the
thirteen listed RPC codes. -/
theorem GRPCToHTTPCode_listed :
    GRPCToHTTPCode codes.OK = 200 ∧
    GRPCToHTTPCode codes.Canceled = 499 ∧
    GRPCToHTTPCode codes.InvalidArgument = 422 ∧
    GRPCToHTTPCode codes.DeadlineExceeded = 504 ∧
    GRPCToHTTPCode codes.NotFound = 404 ∧
    GRPCToHTTPCode codes.AlreadyExists = 409 ∧
    GRPCToHTTPCode codes.PermissionDenied = 403 ∧
    GRPCToHTTPCode codes.ResourceExhausted = 429 ∧
    GRPCToHTTPCode codes.FailedPrecondition = 400 ∧
    GRPCToHTTPCode codes.OutOfRange = 400 ∧
    GRPCToHTTPCode codes.Unimplemented = 501 ∧
    GRPCToHTTPCode codes.Unavailable = 503 ∧
    GRPCToHTTPCode codes.Unauthenticated = 401 := by
  refine ⟨?_, ?_, ?_, ?_, ?_, ?_, ?_, ?_, ?_, ?_, ?_, ?_, ?_⟩ <;> decide

/-- C2: `GRPCToHTTPCode` is a total function, and every code that is not one of the
thirteen listed ones is sent to 500: `Unknown`, `Aborted`, `Internal`, `DataLoss`
and every number beyond the enumeration. -/
theorem GRPCToHTTPCode_fallback :
    (∀ c : Code, c ∉ listedCodes → GRPCToHTTPCode c = 500) ∧
    GRPCToHTTPCode codes.Unknown = 500 ∧
    GRPCToHTTPCode codes.Aborted = 500 ∧
    GRPCToHTTPCode codes.Internal = 500 ∧
    GRPCToHTTPCode codes.DataLoss = 500 ∧
    (∀ c : Code, codes.Unauthenticated < c → GRPCToHTTPCode c = 500) := by
  have key : ∀ c : Code, c ∉ listedCodes → GRPCToHTTPCode c = 500 := by
    intro c hc
    simp only [listedCodes, List.mem_cons, List.mem_singleton, not_or,
      codes.OK, codes.Canceled, codes.InvalidArgument, codes.DeadlineExceeded,
      codes.NotFound, codes.AlreadyExists, codes.PermissionDenied,
      codes.ResourceExhausted, codes.FailedPrecondition, codes.OutOfRange,
      codes.Unimplemented, codes.Unavailable, codes.Unauthenticated,
      List.not_mem_nil, not_false_eq_true, and_true] at hc
    obtain ⟨h0, h1, h3, h4, h5, h6, h7, h8, h9, h11, h12, h14, h16⟩ := hc
    have hb : ∀ k : Nat, c ≠ k → (c == k) = false := fun k hk => by simpa using hk
    simp [GRPCToHTTPCode, rpcToHTTPCodes, List.lookup, hb, h0, h1, h3, h4, h5, h6, h7,
      h8, h9, h11, h12, h14, h16, codes.OK, codes.Canceled, codes.InvalidArgument,
      codes.DeadlineExceeded, codes.NotFound, codes.AlreadyExists,
      codes.PermissionDenied, codes.ResourceExhausted, codes.FailedPrecondition,
      codes.OutOfRange, codes.Unimplemented, codes.Unavailable, codes.Unauthenticated,
      http.StatusInternalServerError]
  refine ⟨key, by decide, by decide, by decide, by decide, ?_⟩
  intro c hc
  apply key
  simp only [codes.Unauthenticated] at hc
  simp only [listedCodes, List.mem_cons, List.mem_singleton, not_or,
    codes.OK, codes.Canceled, codes.InvalidArgument, codes.DeadlineExceeded,
    codes.NotFound, codes.AlreadyExists, codes.PermissionDenied,
    codes.ResourceExhausted, codes.FailedPrecondition, codes.OutOfRange,
    codes.Unimplemented, codes.Unavailable, codes.Unauthenticated,
    List.not_mem_nil, not_false_eq_true, and_true]
  have hc' : (16 : Nat) < c := hc
  refine ⟨?_, ?_, ?_, ?_, ?_, ?_, ?_, ?_, ?_, ?_, ?_, ?_, ?_⟩ <;>
    exact Nat.ne_of_gt (Nat.lt_of_le_of_lt (by decide) hc')

/-! ## Properties of `HandleGRPCError` -/

theorem GRPCToHTTPCode_large (c : Nat) (h : 16 < c) : GRPCToHTTPCode c = 500 := by
  have hb : ∀ k : Nat, k ≤ 16 → (c == k) = false := fun k hk => by
    have : c ≠ k := by omega
    simpa using this
  simp [GRPCToHTTPCode, rpcToHTTPCodes, List.lookup, codes.OK, codes.Canceled,
    codes.InvalidArgument, codes.DeadlineExceeded, codes.NotFound, codes.AlreadyExists,
    codes.PermissionDenied, codes.ResourceExhausted, codes.FailedPrecondition,
    codes.OutOfRange, codes.Unimplemented, codes.Unavailable, codes.Unauthenticated,
    http.StatusInternalServerError, hb]

/-- Every code but `OK` is translated to a status between 400 and 599. -/
theorem GRPCToHTTPCode_error_range (c : Nat) (h : c ≠ 0) :
    400 ≤ GRPCToHTTPCode c ∧ GRPCToHTTPCode c ≤ 599 := by
  by_cases hc : 16 < c
  · rw [GRPCToHTTPCode_large c hc]; decide
  · have hle : c ≤ 16 := by omega
    interval_cases c
    · exact absurd rfl h
    all_goals decide

theorem GRPCToHTTPCode_pos (c : Nat) : 0 < GRPCToHTTPCode c := by
  by_cases h : c = 0
  · rw [h]; decide
  · have := (GRPCToHTTPCode_error_range c h).1
    omega

/-- On an exchange whose response is not written yet, `AbortWithStatus` sets the
status, writes the header and aborts. -/
theorem AbortWithStatus_fresh (c : Context) (code : Int) (hw : c.written = false)
    (hpos : 0 < code) :
    c.AbortWithStatus code =
      { c with status := code, written := true, aborted := true } := by
  obtain ⟨m, p, f, ip, ct, ua, hd, q, st, w, ab, es⟩ := c
  simp only at hw
  subst hw
  by_cases h : st = code
  · subst h
    simp [Context.AbortWithStatus, Context.WriteHeader, Context.WriteHeaderNow,
      Context.Abort]
  · simp [Context.AbortWithStatus, Context.WriteHeader, Context.WriteHeaderNow,
      Context.Abort, h, hpos]

/-- On an exchange whose response is already written, `AbortWithStatus` only aborts:
the status stays as it is. -/
theorem AbortWithStatus_written (c : Context) (code : Int) (hw : c.written = true) :
    c.AbortWithStatus code = { c with aborted := true } := by
  obtain ⟨m, p, f, ip, ct, ua, hd, q, st, w, ab, es⟩ := c
  simp only at hw
  subst hw
  by_cases h : 0 < code ∧ st ≠ code
  · simp [Context.AbortWithStatus, Context.WriteHeader, Context.WriteHeaderNow,
      Context.Abort, h]
  · simp only [Context.AbortWithStatus, Context.WriteHeader, Context.WriteHeaderNow,
      Context.Abort, gt_iff_lt, h, if_false]
    rfl

/-- C3, as the code has it: for every exchange whose response is not written yet and
every error that carries a recognizable RPC status whose code `c` is not `OK`,
`HandleGRPCError` returns true and leaves the exchange aborted with status
`GRPCToHTTPCode c`, the error of the status added at the end of the exchange's error
list. -/
theorem HandleGRPCError_status (ctx : Context) (err : GoError) (st : Status)
    (hw : ctx.written = false)
    (hst : status.FromError (some err) = (some st, true)) (hc : st.code ≠ codes.OK) :
    status.Err (some st) = some (GoError.grpc st) ∧
    HandleGRPCError ctx (some err) =
      Outcome.returned true
        { ctx with
          status := GRPCToHTTPCode st.code
          written := true
          aborted := true
          Errors := ctx.Errors ++ [GoError.grpc st] } := by
  have herr : status.Err (some st) = some (GoError.grpc st) := by
    simp [status.Err, hc]
  refine ⟨herr, ?_⟩
  simp [HandleGRPCError, hst, herr, status.Code, Context.AbortWithError,
    AbortWithStatus_fresh ctx _ hw (GRPCToHTTPCode_pos st.code), Context.Error,
    GoError.asGinError]

/-- The exchange of the package's tests: `GET /foo`, nothing written yet. -/
theorem HandleGRPCError_status_witness :
    HandleGRPCError
        ⟨"GET", "HTTP/1.1", "", "", "", "", [], [], 200, false, false, []⟩
        (some (GoError.grpc ⟨codes.NotFound, "foo"⟩)) =
      Outcome.returned true
        ⟨"GET", "HTTP/1.1", "", "", "", "", [], [], 404, true, true,
          [GoError.grpc ⟨codes.NotFound, "foo"⟩]⟩ :=
  (HandleGRPCError_status
    ⟨"GET", "HTTP/1.1", "", "", "", "", [], [], 200, false, false, []⟩
    (GoError.grpc ⟨codes.NotFound, "foo"⟩) ⟨codes.NotFound, "foo"⟩ rfl rfl (by decide)).2

/-- C3 fails in two places. An error whose `GRPCStatus()` is an `OK` status is
recognized, its status has no error (`Err` is nil), and `HandleGRPCError` panics in
`AbortWithError` after setting status 200 instead of returning true. And on an
exchange whose response is already written with status 200, a `NotFound` status error
leaves the status at 200, not at `GRPCToHTTPCode NotFound = 404`. -/
theorem HandleGRPCError_status_counterexample :
    (status.FromError (some (GoError.grpc ⟨codes.OK, ""⟩)) = (some ⟨codes.OK, ""⟩, true) ∧
      status.Err (some ⟨codes.OK, ""⟩) = none ∧
      HandleGRPCError
          ⟨"GET", "HTTP/1.1", "", "", "", "", [], [], 200, false, false, []⟩
          (some (GoError.grpc ⟨codes.OK, ""⟩)) =
        Outcome.panicked "err is nil"
          ⟨"GET", "HTTP/1.1", "", "", "", "", [], [], 200, true, true, []⟩ ∧
      ¬ ∃ ctx', HandleGRPCError
          ⟨"GET", "HTTP/1.1", "", "", "", "", [], [], 200, false, false, []⟩
          (some (GoError.grpc ⟨codes.OK, ""⟩)) = Outcome.returned true ctx') ∧
    (status.FromError (some (GoError.grpc ⟨codes.NotFound, "foo"⟩)) =
        (some ⟨codes.NotFound, "foo"⟩, true) ∧
      GRPCToHTTPCode codes.NotFound = 404 ∧
      HandleGRPCError
          ⟨"GET", "HTTP/1.1", "", "", "", "", [], [], 200, true, false, []⟩
          (some (GoError.grpc ⟨codes.NotFound, "foo"⟩)) =
        Outcome.returned true
          ⟨"GET", "HTTP/1.1", "", "", "", "", [], [], 200, true, true,
            [GoError.grpc ⟨codes.NotFound, "foo"⟩]⟩) := by
  refine ⟨⟨by decide, by decide, by decide, ?_⟩, by decide, by decide, by decide⟩
  rintro ⟨ctx', h⟩
  have hp : HandleGRPCError
        ⟨"GET", "HTTP/1.1", "", "", "", "", [], [], 200, false, false, []⟩
        (some (GoError.grpc ⟨codes.OK, ""⟩)) =
      Outcome.panicked "err is nil"
        ⟨"GET", "HTTP/1.1", "", "", "", "", [], [], 200, true, true, []⟩ := by decide
  rw [hp] at h
  cases h

/-- C4, as the code has it: for every exchange whose response is not written yet and
every non-nil error that carries no recognizable RPC status and does not wrap a gin
error, `HandleGRPCError` returns true and leaves the exchange aborted with status 500,
the error itself attached at the end of the exchange's error list: as the `Err` of a
new record, or, when the error is a gin error, as that record. -/
theorem HandleGRPCError_no_status (ctx : Context) (err : GoError)
    (hw : ctx.written = false)
    (hno : (status.FromError (some err)).2 = false)
    (hg : err.wrapsGinError = false) :
    ∃ entry,
      HandleGRPCError ctx (some err) =
        Outcome.returned true
          { ctx with
            status := 500
            written := true
            aborted := true
            Errors := ctx.Errors ++ [entry] } ∧
      (entry = err ∨ err = GoError.gin entry) := by
  obtain ⟨st, hst⟩ : ∃ st, status.FromError (some err) = (st, false) :=
    ⟨(status.FromError (some err)).1, Prod.ext rfl hno⟩
  have h500 : (0 : Int) < 500 := by decide
  have hrun : HandleGRPCError ctx (some err) =
      Outcome.returned true
        { ctx with
          status := 500
          written := true
          aborted := true
          Errors := ctx.Errors ++ [match err.asGinError with
            | some inner => inner
            | none => err] } := by
    simp [HandleGRPCError, hst, Context.AbortWithError,
      AbortWithStatus_fresh ctx _ hw h500, Context.Error, http.StatusInternalServerError]
  refine ⟨_, hrun, ?_⟩
  cases err with
  | plain msg => left; rfl
  | grpc s => left; rfl
  | nilStatus msg => left; rfl
  | gin inner => right; rfl
  | wrap msg inner =>
    left
    simp only [GoError.wrapsGinError] at hg
    simp only [GoError.asGinError]
    cases h : inner.asGinError with
    | none => rfl
    | some g => rw [h] at hg; simp at hg

/-- A plain error on the exchange of the package's tests gives 500. -/
theorem HandleGRPCError_no_status_witness :
    ∃ entry,
      HandleGRPCError
          ⟨"GET", "HTTP/1.1", "", "", "", "", [], [], 200, false, false, []⟩
          (some (GoError.plain "dummy")) =
        Outcome.returned true
          ⟨"GET", "HTTP/1.1", "", "", "", "", [], [], 500, true, true, [entry]⟩ ∧
      (entry = GoError.plain "dummy" ∨ GoError.plain "dummy" = GoError.gin entry) :=
  HandleGRPCError_no_status
    ⟨"GET", "HTTP/1.1", "", "", "", "", [], [], 200, false, false, []⟩
    (GoError.plain "dummy") rfl rfl rfl

/-- C4 fails in two places. On an exchange whose response is already written with
status 404, a plain error leaves the status at 404, not at 500. And for an error that
wraps a gin error, what is attached is the wrapped gin error, whose text is `boom`,
not the error itself, whose text is `handler: boom`. -/
theorem HandleGRPCError_no_status_counterexample :
    ((status.FromError (some (GoError.plain "dummy"))).2 = false ∧
      HandleGRPCError
          ⟨"GET", "HTTP/1.1", "", "", "", "", [], [], 404, true, false, []⟩
          (some (GoError.plain "dummy")) =
        Outcome.returned true
          ⟨"GET", "HTTP/1.1", "", "", "", "", [], [], 404, true, true,
            [GoError.plain "dummy"]⟩) ∧
    ((status.FromError
          (some (GoError.wrap "handler: boom" (GoError.gin (GoError.plain "boom"))))).2 =
        false ∧
      HandleGRPCError
          ⟨"GET", "HTTP/1.1", "", "", "", "", [], [], 200, false, false, []⟩
          (some (GoError.wrap "handler: boom" (GoError.gin (GoError.plain "boom")))) =
        Outcome.returned true
          ⟨"GET", "HTTP/1.1", "", "", "", "", [], [], 500, true, true,
            [GoError.plain "boom"]⟩ ∧
      GoError.plain "boom" ≠
        GoError.wrap "handler: boom" (GoError.gin (GoError.plain "boom")) ∧
      GoError.wrap "handler: boom" (GoError.gin (GoError.plain "boom")) ≠
        GoError.gin (GoError.plain "boom") ∧
      Context.ErrorsErrors
          ⟨"GET", "HTTP/1.1", "", "", "", "", [], [], 500, true, true,
            [GoError.plain "boom"]⟩ = ["boom"] ∧
      GoError.Error (GoError.wrap "handler: boom" (GoError.gin (GoError.plain "boom"))) =
        "handler: boom") := by
  refine ⟨⟨by decide, by decide⟩, by decide, by decide, by decide, by decide, by decide,
    by decide⟩

/-- C5: on the nil error `HandleGRPCError` returns false and leaves the exchange as it
was: status code, aborted flag and error list are unchanged. -/
theorem HandleGRPCError_nil (ctx : Context) :
    HandleGRPCError ctx none = Outcome.returned false ctx ∧
    ∀ ctx', HandleGRPCError ctx none = Outcome.returned false ctx' →
      ctx'.status = ctx.status ∧ ctx'.aborted = ctx.aborted ∧ ctx'.Errors = ctx.Errors := by
  have h : HandleGRPCError ctx none = Outcome.returned false ctx := by
    simp [HandleGRPCError]
  refine ⟨h, ?_⟩
  intro ctx' h'
  rw [h] at h'
  cases h'
  exact ⟨rfl, rfl, rfl⟩


/-! ## Maps -/

theorem mapGet_mapSet {β : Type} (m : List (String × β)) (k k' : String) (v : β) :
    mapGet (mapSet m k v) k' = if k' = k then some v else mapGet m k' := by
  have beqF : ∀ x y : String, x ≠ y → (x == y) = false := fun x y hxy => by simpa using hxy
  induction m with
  | nil =>
    by_cases h : k' = k
    · simp [mapSet, mapGet, List.lookup, h]
    · simp [mapSet, mapGet, List.lookup, h, beqF k' k h]
  | cons p rest ih =>
    obtain ⟨a, b⟩ := p
    simp only [mapGet] at ih ⊢
    by_cases hak : a = k
    · subst hak
      by_cases h : k' = a
      · simp [mapSet, List.lookup, h]
      · simp [mapSet, List.lookup, h, beqF k' a h]
    · by_cases h : k' = a
      · subst h
        simp [mapSet, List.lookup, hak]
      · simp [mapSet, List.lookup, hak, h, ih, beqF k' a h]

theorem mapGet_mapSet_ne {β : Type} (m : List (String × β)) (k k' : String) (v : β)
    (h : k' ≠ k) : mapGet (mapSet m k v) k' = mapGet m k' := by
  rw [mapGet_mapSet, if_neg h]

theorem mapGet_mapSet_self {β : Type} (m : List (String × β)) (k : String) (v : β) :
    mapGet (mapSet m k v) k = some v := by
  rw [mapGet_mapSet, if_pos rfl]

/-! ## Strings -/

theorem utf8ByteSize_pos_iff (s : String) : 0 < s.utf8ByteSize ↔ s ≠ "" := by
  cases s with
  | mk l =>
    cases l with
    | nil => simp [String.utf8ByteSize, String.utf8ByteSize.go]
    | cons c cs =>
      have := Char.utf8Size_pos c
      simp [String.utf8ByteSize, String.utf8ByteSize.go]
      constructor
      · intro _ h; exact absurd (congrArg String.data h) (by simp)
      · intro _; omega

theorem splitChars_head (sep : Char) (l : List Char) :
    ∃ rest, splitChars sep l = l.takeWhile (fun c => c != sep) :: rest := by
  induction l with
  | nil => exact ⟨[], rfl⟩
  | cons c cs ih =>
    obtain ⟨rest, hrest⟩ := ih
    by_cases h : c = sep
    · exact ⟨splitChars sep cs, by simp [splitChars, h]⟩
    · exact ⟨rest, by simp [splitChars, h, hrest]⟩

theorem Split_head (s : String) :
    ∃ rest, Split s '/' = firstSegment s :: rest := by
  obtain ⟨rest, h⟩ := splitChars_head '/' s.data
  exact ⟨rest.map String.mk, by simp [Split, h, firstSegment]⟩

/-- The top-level entries of `RenderJSON` before the trace field is considered. -/
theorem RenderJSON_get (report : reportMessage) (key : String) (hk : key ≠ traceKey) :
    mapGet (RenderJSON report) key =
      mapGet
        (match report.metrics with
          | none =>
            [ ("httpRequest", Value.object
                [ ("requestMethod", Field.str report.ginC.Method),
                  ("requestUrl", Field.str report.ginC.fullPath),
                  ("status", Field.int report.ginC.status),
                  ("userAgent", Field.str report.ginC.userAgent),
                  ("remoteIp", Field.str report.ginC.clientIP),
                  ("protocol", Field.str report.ginC.Proto) ]),
              ("severity", Value.str
                (if report.ginC.status > 499 then "ERROR"
                 else if report.ginC.status > 399 then "WARNING" else "INFO")),
              ("ip", Value.str report.ginC.clientIP),
              ("contentType", Value.str report.ginC.contentType),
              ("errors", Value.strs report.ginC.ErrorsErrors),
              ("query", Value.values report.ginC.Query) ]
          | some m =>
            [ ("httpRequest", Value.object
                [ ("requestMethod", Field.str report.ginC.Method),
                  ("requestUrl", Field.str report.ginC.fullPath),
                  ("status", Field.int report.ginC.status),
                  ("userAgent", Field.str report.ginC.userAgent),
                  ("remoteIp", Field.str report.ginC.clientIP),
                  ("protocol", Field.str report.ginC.Proto),
                  ("latency", Field.str (Duration.String m.Latency)) ]),
              ("severity", Value.str
                (if report.ginC.status > 499 then "ERROR"
                 else if report.ginC.status > 399 then "WARNING" else "INFO")),
              ("ip", Value.str report.ginC.clientIP),
              ("contentType", Value.str report.ginC.contentType),
              ("errors", Value.strs report.ginC.ErrorsErrors),
              ("query", Value.values report.ginC.Query),
              ("start", Value.time m.StartedAt) ]) key := by
  unfold RenderJSON
  cases hm : report.metrics with
  | none =>
    simp only []
    split
    · split
      · split
        · rw [mapGet_mapSet_ne _ _ _ _ hk]
        · rfl
      · rfl
    · rfl
  | some m =>
    simp only []
    have e1 : mapSet
        [ ("requestMethod", Field.str report.ginC.Method),
          ("requestUrl", Field.str report.ginC.fullPath),
          ("status", Field.int report.ginC.status),
          ("userAgent", Field.str report.ginC.userAgent),
          ("remoteIp", Field.str report.ginC.clientIP),
          ("protocol", Field.str report.ginC.Proto) ] "latency"
          (Field.str (Duration.String m.Latency)) =
        [ ("requestMethod", Field.str report.ginC.Method),
          ("requestUrl", Field.str report.ginC.fullPath),
          ("status", Field.int report.ginC.status),
          ("userAgent", Field.str report.ginC.userAgent),
          ("remoteIp", Field.str report.ginC.clientIP),
          ("protocol", Field.str report.ginC.Proto),
          ("latency", Field.str (Duration.String m.Latency)) ] := by
      simp [mapSet]
    rw [e1]
    split
    · split
      · split
        · rw [mapGet_mapSet_ne _ _ _ _ hk]; simp [mapSet]
        · simp [mapSet]
      · simp [mapSet]
    · simp [mapSet]

/-! ## Properties of the structured rendering and of the middleware -/

/-- C6: for every status code `s` the `severity` field of `RenderJSON` is `"ERROR"` if
`s ≥ 500`, `"WARNING"` if `400 ≤ s < 500` and `"INFO"` otherwise, negative codes and
zero included; it never has another value. -/
theorem RenderJSON_severity (report : reportMessage) :
    (500 ≤ report.ginC.status →
      mapGet (RenderJSON report) "severity" = some (Value.str "ERROR")) ∧
    (400 ≤ report.ginC.status → report.ginC.status < 500 →
      mapGet (RenderJSON report) "severity" = some (Value.str "WARNING")) ∧
    (report.ginC.status < 400 →
      mapGet (RenderJSON report) "severity" = some (Value.str "INFO")) ∧
    (mapGet (RenderJSON report) "severity" = some (Value.str "ERROR") ∨
      mapGet (RenderJSON report) "severity" = some (Value.str "WARNING") ∨
      mapGet (RenderJSON report) "severity" = some (Value.str "INFO")) := by
  have key : mapGet (RenderJSON report) "severity" =
      some (Value.str
        (if report.ginC.status > 499 then "ERROR"
         else if report.ginC.status > 399 then "WARNING" else "INFO")) := by
    rw [RenderJSON_get report "severity" (by decide)]
    cases report.metrics <;> rfl
  rw [key]
  refine ⟨?_, ?_, ?_, ?_⟩
  · intro h
    rw [if_pos (by omega)]
  · intro h1 h2
    rw [if_neg (by omega), if_pos (by omega)]
  · intro h
    rw [if_neg (by omega), if_neg (by omega)]
  · by_cases h1 : report.ginC.status > 499
    · left; rw [if_pos h1]
    · by_cases h2 : report.ginC.status > 399
      · right; left; rw [if_neg h1, if_pos h2]
      · right; right; rw [if_neg h1, if_neg h2]

/-- C7: whatever the rest of the chain does and whatever status `s` it leaves, the
middleware first runs the rest of the chain and then calls the logger once, with level
ERROR if `s ≥ 500`, WARNING if `400 ≤ s < 500` and INFO otherwise, and with a report
that has metrics, the configured project identifier and the exchange as the chain
left it. -/
theorem ReportMiddleware_logs_once (projectID : String) (next : Context → Context)
    (start : Time) (since : Duration) (ctx : Context) :
    ∃ level report,
      ReportMiddleware projectID next start since ctx =
        (next ctx, [Event.Next, Event.Log level report]) ∧
      (500 ≤ (next ctx).status → level = Level.LevelError) ∧
      (400 ≤ (next ctx).status → (next ctx).status < 500 → level = Level.LevelWarning) ∧
      ((next ctx).status < 400 → level = Level.LevelInfo) ∧
      report.metrics = some ⟨since, start⟩ ∧
      report.metrics ≠ none ∧
      report.projectID = projectID ∧
      report.ginC = next ctx := by
  refine ⟨_, _, rfl, ?_, ?_, ?_, rfl, ?_, rfl, rfl⟩
  · intro h
    simp only [ge_iff_le]
    rw [if_pos h]
  · intro h1 h2
    simp only [ge_iff_le]
    rw [if_neg (by omega), if_pos h1]
  · intro h
    simp only [ge_iff_le]
    rw [if_neg (by omega), if_neg (by omega)]
  · simp [NewReport]

/-- C8: `RenderJSON` has the trace field exactly when the project identifier is not
empty and the part of the `X-Cloud-Trace-Context` header before its first `/` is not
empty; the field is then `projects/<projectID>/traces/<that part>`. Header
`abcdefg/hijklmnop` with project `cd` gives `projects/cd/traces/abcdefg`; a missing or
empty header gives no trace field. -/
theorem RenderJSON_trace (report : reportMessage) :
    (mapGet (RenderJSON report) traceKey =
      if report.projectID ≠ "" ∧
          firstSegment (report.ginC.GetHeader "X-Cloud-Trace-Context") ≠ "" then
        some (Value.str ("projects/" ++ report.projectID ++ "/traces/" ++
          firstSegment (report.ginC.GetHeader "X-Cloud-Trace-Context")))
      else none) ∧
    ((mapGet (RenderJSON report) traceKey).isSome = true ↔
      report.projectID ≠ "" ∧
        firstSegment (report.ginC.GetHeader "X-Cloud-Trace-Context") ≠ "") ∧
    (report.ginC.Header.lookup "X-Cloud-Trace-Context" = none →
      mapGet (RenderJSON report) traceKey = none) ∧
    (report.ginC.GetHeader "X-Cloud-Trace-Context" = "" →
      mapGet (RenderJSON report) traceKey = none) ∧
    (report.projectID = "cd" →
      report.ginC.GetHeader "X-Cloud-Trace-Context" = "abcdefg/hijklmnop" →
      mapGet (RenderJSON report) traceKey =
        some (Value.str "projects/cd/traces/abcdefg")) := by
  have key : mapGet (RenderJSON report) traceKey =
      if report.projectID ≠ "" ∧
          firstSegment (report.ginC.GetHeader "X-Cloud-Trace-Context") ≠ "" then
        some (Value.str ("projects/" ++ report.projectID ++ "/traces/" ++
          firstSegment (report.ginC.GetHeader "X-Cloud-Trace-Context")))
      else none := by
    obtain ⟨rest, hsplit⟩ := Split_head (report.ginC.GetHeader "X-Cloud-Trace-Context")
    unfold RenderJSON
    simp only [hsplit]
    by_cases hp : report.projectID = ""
    · simp only [hp, ne_eq, not_true_eq_false, false_and, if_false]
      cases report.metrics <;> simp [mapGet, mapSet, traceKey, List.lookup]
    · by_cases hs : firstSegment (report.ginC.GetHeader "X-Cloud-Trace-Context") = ""
      · have hz : ¬ (firstSegment
            (report.ginC.GetHeader "X-Cloud-Trace-Context")).utf8ByteSize > 0 := by
          rw [gt_iff_lt, utf8ByteSize_pos_iff]; simpa using hs
        simp only [hs, ne_eq, not_true_eq_false, and_false, if_false, hp,
          not_false_eq_true, if_true]
        rw [hs] at hz
        simp only [hz, if_false]
        cases report.metrics <;> simp [mapGet, mapSet, traceKey, List.lookup]
      · have hz : (firstSegment
            (report.ginC.GetHeader "X-Cloud-Trace-Context")).utf8ByteSize > 0 := by
          rw [gt_iff_lt, utf8ByteSize_pos_iff]; exact hs
        simp only [hs, ne_eq, hp, not_false_eq_true, and_self, if_true, hz]
        exact mapGet_mapSet_self _ _ _
  have hempty : report.ginC.GetHeader "X-Cloud-Trace-Context" = "" →
      mapGet (RenderJSON report) traceKey = none := by
    intro h
    rw [key, h]
    have : firstSegment "" = "" := by decide
    simp [this]
  refine ⟨key, ?_, ?_, hempty, ?_⟩
  · rw [key]
    by_cases h : report.projectID ≠ "" ∧
        firstSegment (report.ginC.GetHeader "X-Cloud-Trace-Context") ≠ ""
    · simp only [if_pos h, Option.isSome_some, true_iff]; exact h
    · simp only [if_neg h, Option.isSome_none]
      constructor
      · intro hf; cases hf
      · intro hf; exact absurd hf h
  · intro h
    apply hempty
    simp [Context.GetHeader, h]
  · intro hp hh
    rw [key, hp, hh]
    decide

/-! ## Sorting -/

theorem char_eq_of_toNat (x y : Char) (h : x.toNat = y.toNat) : x = y := by
  apply Char.ext
  apply UInt32.ext
  exact h

theorem lessChars_iff : ∀ a b : List Char, lessChars a b = true ↔ a < b := by
  intro a
  induction a with
  | nil =>
    intro b
    cases b with
    | nil => simp [lessChars]
    | cons y ys =>
      simp only [lessChars, true_iff]
      exact List.Lex.nil
  | cons x xs ih =>
    intro b
    cases b with
    | nil =>
      simp only [lessChars]
      constructor
      · intro h; cases h
      · intro h; cases h
    | cons y ys =>
      have hlt : ∀ u v : Char, u < v ↔ u.toNat < v.toNat := fun _ _ => Iff.rfl
      simp only [lessChars]
      by_cases hxy : x.toNat < y.toNat
      · simp only [hxy, if_true, true_iff]
        exact List.Lex.rel ((hlt x y).2 hxy)
      · by_cases hyx : y.toNat < x.toNat
        · simp only [hxy, hyx, if_true, if_false]
          constructor
          · intro h; cases h
          · intro h
            cases h with
            | rel h1 => exact absurd ((hlt x y).1 h1) hxy
            | cons h2 => exact absurd hyx (Nat.lt_irrefl _)
        · simp only [hxy, hyx, if_false]
          rw [ih ys]
          have hEq : x = y := char_eq_of_toNat x y (by omega)
          subst hEq
          constructor
          · intro h
            exact List.Lex.cons h
          · intro h
            cases h with
            | rel h1 => exact absurd ((hlt x x).1 h1) hxy
            | cons h3 => exact h3

/-- The comparison `sortStrings` sorts by is `≤` on strings. -/
theorem stringLess_false_iff (a b : String) : stringLess b a = false ↔ a ≤ b := by
  have h1 : stringLess b a = true ↔ b < a := by
    rw [String.lt_iff_toList_lt]
    exact lessChars_iff b.data a.data
  rw [← not_lt, ← h1]
  simp

theorem sortStrings_eq (l : List String) :
    sortStrings l = l.insertionSort (fun a b => a ≤ b) := by
  unfold sortStrings
  induction l with
  | nil => rfl
  | cons x xs ih =>
    simp only [List.insertionSort]
    rw [ih]
    generalize List.insertionSort (fun a b => a ≤ b) xs = ys
    induction ys with
    | nil => rfl
    | cons y ys ihy =>
      simp only [List.orderedInsert]
      by_cases h : x ≤ y
      · rw [if_pos h, if_pos ((stringLess_false_iff x y).2 h)]
      · rw [if_neg h, if_neg (fun hc => h ((stringLess_false_iff x y).1 hc)), ihy]

theorem sortStrings_sorted (l : List String) : (sortStrings l).Sorted (fun a b => a ≤ b) := by
  rw [sortStrings_eq]
  exact List.sorted_insertionSort _ l

theorem sortStrings_perm (l : List String) : (sortStrings l).Perm l := by
  rw [sortStrings_eq]
  exact List.perm_insertionSort _ l

theorem sortStrings_congr {l₁ l₂ : List String} (h : l₁.Perm l₂) :
    sortStrings l₁ = sortStrings l₂ :=
  List.eq_of_perm_of_sorted
    (((sortStrings_perm l₁).trans h).trans (sortStrings_perm l₂).symm)
    (sortStrings_sorted l₁) (sortStrings_sorted l₂)

theorem sortStrings_strict {l : List String} (h : l.Nodup) :
    (sortStrings l).Sorted (fun a b => a < b) :=
  (sortStrings_sorted l).lt_of_le ((sortStrings_perm l).nodup_iff.2 h)

/-! ## The query map -/

theorem mapSet_keys_mem {β : Type} (m : List (String × β)) (k k' : String) (v : β) :
    k' ∈ (mapSet m k v).map Prod.fst ↔ k' = k ∨ k' ∈ m.map Prod.fst := by
  induction m with
  | nil => simp [mapSet]
  | cons p rest ih =>
    obtain ⟨a, b⟩ := p
    by_cases hak : a = k
    · subst hak
      simp [mapSet]
    · simp only [mapSet, if_neg hak, List.map_cons, List.mem_cons, ih]
      tauto

theorem mapSet_keys_nodup {β : Type} (m : List (String × β)) (k : String) (v : β)
    (h : (m.map Prod.fst).Nodup) : ((mapSet m k v).map Prod.fst).Nodup := by
  induction m with
  | nil => simp [mapSet]
  | cons p rest ih =>
    obtain ⟨a, b⟩ := p
    simp only [List.map_cons, List.nodup_cons] at h
    by_cases hak : a = k
    · subst hak
      simpa [mapSet] using h
    · simp only [mapSet, if_neg hak, List.map_cons, List.nodup_cons]
      refine ⟨?_, ih h.2⟩
      rw [mapSet_keys_mem]
      rintro (h1 | h1)
      · exact hak h1
      · exact h.1 h1

theorem Values_Add_get (m : Values) (k k' v : String) :
    (mapGet (Values.Add m k v) k').getD [] =
      (mapGet m k').getD [] ++ (if k' = k then [v] else []) := by
  unfold Values.Add
  rw [mapGet_mapSet]
  by_cases h : k' = k
  · subst h; simp
  · simp [h]

theorem build_get (ps : List (String × String)) (m : Values) (k : String) :
    (mapGet (ps.foldl (fun m kv => Values.Add m kv.1 kv.2) m) k).getD [] =
      (mapGet m k).getD [] ++ valuesInURL ps k := by
  induction ps generalizing m with
  | nil => simp [valuesInURL]
  | cons p ps ih =>
    simp only [List.foldl_cons]
    rw [ih, Values_Add_get]
    by_cases h : k = p.1
    · have h' : p.1 = k := h.symm
      simp [valuesInURL, h, List.filter_cons]
    · have h' : ¬ p.1 = k := fun hc => h hc.symm
      simp [valuesInURL, h, h', List.filter_cons]

theorem build_keys_mem (ps : List (String × String)) (m : Values) (k : String) :
    k ∈ (ps.foldl (fun m kv => Values.Add m kv.1 kv.2) m).map Prod.fst ↔
      k ∈ m.map Prod.fst ∨ k ∈ ps.map Prod.fst := by
  induction ps generalizing m with
  | nil => simp
  | cons p ps ih =>
    simp only [List.foldl_cons]
    rw [ih]
    unfold Values.Add
    rw [mapSet_keys_mem]
    simp only [List.map_cons, List.mem_cons]
    tauto

theorem build_keys_nodup (ps : List (String × String)) (m : Values)
    (h : (m.map Prod.fst).Nodup) :
    ((ps.foldl (fun m kv => Values.Add m kv.1 kv.2) m).map Prod.fst).Nodup := by
  induction ps generalizing m with
  | nil => simpa using h
  | cons p ps ih =>
    simp only [List.foldl_cons]
    exact ih _ (mapSet_keys_nodup m _ _ h)

theorem Query_get (c : Context) (k : String) :
    (mapGet c.Query k).getD [] = valuesInURL c.rawQuery k := by
  unfold Context.Query
  rw [build_get]
  simp [mapGet]

theorem Query_keys_mem (c : Context) (k : String) :
    k ∈ c.Query.map Prod.fst ↔ ∃ v, (k, v) ∈ c.rawQuery := by
  unfold Context.Query
  rw [build_keys_mem]
  simp

theorem Query_keys_nodup (c : Context) : (c.Query.map Prod.fst).Nodup := by
  unfold Context.Query
  exact build_keys_nodup _ _ (by simp)

theorem Query_length_pos (c : Context) : c.Query.length > 0 ↔ c.rawQuery ≠ [] := by
  constructor
  · intro h hnil
    have : c.Query = [] := by simp [Context.Query, hnil]
    rw [this] at h
    exact absurd h (by simp)
  · intro h
    cases hq : c.rawQuery with
    | nil => exact absurd hq h
    | cons p ps =>
      have hmem : p.1 ∈ c.Query.map Prod.fst := by
        rw [Query_keys_mem]
        exact ⟨p.2, by rw [hq]; simp⟩
      cases hQ : c.Query with
      | nil => rw [hQ] at hmem; simp at hmem
      | cons _ _ => simp

/-- The rows of the query table, whatever order the runtime iterates the map in. -/
theorem queryRows_eq (env : Env) (hperm : ∀ l, (env.mapOrder l).Perm l) (c : Context) :
    queryRows env c.Query =
      (sortStrings (c.Query.map Prod.fst)).map (fun key =>
        ["  " ++ key, "  " ++ Join (sortStrings (valuesInURL c.rawQuery key)) "\n  "]) := by
  unfold queryRows Keys
  rw [sortStrings_congr (hperm _)]
  apply List.map_congr_left
  intro key _
  simp only [Query_get]

/-! ## Rendering without colours -/

theorem expandTabs_of_not_mem (l : List Char) (h : '\t' ∉ l) : expandTabs l = l := by
  induction l with
  | nil => rfl
  | cons c cs ih =>
    simp only [List.mem_cons, not_or] at h
    have hc : ¬ c = '\t' := fun e => h.1 e.symm
    simp only [expandTabs, hc, if_false, ih h.2]

theorem replaceCRLF_of_not_mem (l : List Char) (h : '\n' ∉ l) : replaceCRLF l = l := by
  induction l with
  | nil => rfl
  | cons c cs ih =>
    simp only [List.mem_cons, not_or] at h
    cases cs with
    | nil => rfl
    | cons d ds =>
      have hd : ¬ d = '\n' := by
        have := h.2
        simp only [List.mem_cons, not_or] at this
        exact fun e => this.1 e.symm
      simp only [replaceCRLF, hd, and_false, if_false, ih h.2]

theorem splitChars_of_not_mem (sep : Char) (l : List Char) (h : sep ∉ l) :
    splitChars sep l = [l] := by
  induction l with
  | nil => rfl
  | cons c cs ih =>
    simp only [List.mem_cons, not_or] at h
    have hc : ¬ c = sep := fun e => h.1 e.symm
    simp only [splitChars, hc, if_false, ih h.2]

/-- On a terminal without colours a text of one line without tabs is rendered as the
left margin followed by the text. -/
theorem renderPlain_oneLine (width : List Char → Nat) (st : Style) (text : String)
    (h : oneLine text) :
    renderPlain width st text = String.mk (List.replicate st.marginLeft ' ') ++ text := by
  simp only [renderPlain, expandTabs_of_not_mem _ h.1, replaceCRLF_of_not_mem _ h.2,
    splitChars_of_not_mem _ _ h.2]
  simp [alignLines, List.intercalate]
  rfl

theorem oneLine_append {a b : String} (ha : oneLine a) (hb : oneLine b) :
    oneLine (a ++ b) := by
  unfold oneLine at *
  simp only [String.data_append, List.mem_append, not_or]
  exact ⟨⟨ha.1, hb.1⟩, ⟨ha.2, hb.2⟩⟩

/-- The terminal rendering is its five parts in order, then two newlines. -/
theorem RenderTerminal_parts (env : Env) (report : reportMessage) :
    RenderTerminal env report =
      statusLine env report ++ latencyMessage env report ++ queryMessage env report ++
        errorMessage env report ++ "\n\n" := by
  unfold RenderTerminal statusLine
  rfl

/-- C9: when the request has a query parameter, the query table of `RenderTerminal`
has one row for each distinct query key, the rows in strictly increasing order of key
whatever the order of the URL and of map iteration, and the cell of each row lists the
values of its key in increasing order, one a line; without query parameters there is
no table. -/
theorem RenderTerminal_query_table (env : Env) (hperm : ∀ l, (env.mapOrder l).Perm l)
    (report : reportMessage) :
    (report.ginC.rawQuery = [] →
      queryMessage env report = "" ∧
      RenderTerminal env report =
        statusLine env report ++ latencyMessage env report ++ errorMessage env report ++
          "\n\n") ∧
    (report.ginC.rawQuery ≠ [] →
      ∃ (keys : List String) (vals : String → List String),
        RenderTerminal env report =
          statusLine env report ++ latencyMessage env report ++
            ("\n" ++ env.renderTable
              (keys.map (fun k => ["  " ++ k, "  " ++ Join (vals k) "\n  "]))) ++
            errorMessage env report ++ "\n\n" ∧
        keys.Sorted (fun a b => a < b) ∧
        keys.Nodup ∧
        (∀ k, k ∈ keys ↔ ∃ v, (k, v) ∈ report.ginC.rawQuery) ∧
        (∀ k, (vals k).Sorted (fun a b => a ≤ b)) ∧
        (∀ k, (vals k).Perm (valuesInURL report.ginC.rawQuery k))) ∧
    (∀ (env' : Env) (report' : reportMessage), (∀ l, (env'.mapOrder l).Perm l) →
      report'.ginC.rawQuery.Perm report.ginC.rawQuery →
      queryRows env' report'.ginC.Query = queryRows env report.ginC.Query) := by
  refine ⟨?_, ?_, ?_⟩
  · intro hnil
    have hq : queryMessage env report = "" := by
      unfold queryMessage
      have : ¬ report.ginC.Query.length > 0 := by
        rw [Query_length_pos]; simp [hnil]
      simp only [this, if_false]
    refine ⟨hq, ?_⟩
    rw [RenderTerminal_parts, hq, String.append_empty]
  · intro hne
    refine ⟨sortStrings (report.ginC.Query.map Prod.fst),
      fun k => sortStrings (valuesInURL report.ginC.rawQuery k), ?_, ?_, ?_, ?_, ?_, ?_⟩
    · rw [RenderTerminal_parts]
      have hq : queryMessage env report = "\n" ++ env.renderTable
          ((sortStrings (report.ginC.Query.map Prod.fst)).map (fun k =>
            ["  " ++ k, "  " ++
              Join (sortStrings (valuesInURL report.ginC.rawQuery k)) "\n  "])) := by
        unfold queryMessage
        have : report.ginC.Query.length > 0 := (Query_length_pos _).2 hne
        simp only [this, if_true]
        rw [queryRows_eq env hperm]
      rw [hq]
    · exact sortStrings_strict (Query_keys_nodup _)
    · exact (sortStrings_perm _).nodup_iff.2 (Query_keys_nodup _)
    · intro k
      rw [(sortStrings_perm _).mem_iff, Query_keys_mem]
    · intro k
      exact sortStrings_sorted _
    · intro k
      exact sortStrings_perm _
  · intro env' report' hperm' hp
    rw [queryRows_eq env hperm, queryRows_eq env' hperm']
    have hkeys : (report'.ginC.Query.map Prod.fst).Perm (report.ginC.Query.map Prod.fst) := by
      rw [List.perm_ext_iff_of_nodup (Query_keys_nodup _) (Query_keys_nodup _)]
      intro k
      rw [Query_keys_mem, Query_keys_mem]
      constructor
      · rintro ⟨v, hv⟩; exact ⟨v, hp.mem_iff.1 hv⟩
      · rintro ⟨v, hv⟩; exact ⟨v, hp.mem_iff.2 hv⟩
    rw [sortStrings_congr hkeys]
    apply List.map_congr_left
    intro k _
    have hv : (valuesInURL report'.ginC.rawQuery k).Perm
        (valuesInURL report.ginC.rawQuery k) := by
      unfold valuesInURL
      exact (hp.filter _).map _
    rw [sortStrings_congr hv]

/-- The request `/foo?foo=bar&bar=baz&foo=qux` of the package's tests: the table has
the rows `bar: baz` and `foo: bar, qux`, also when the URL lists the pairs the other
way round and the runtime iterates the map backwards. -/
theorem RenderTerminal_query_table_witness :
    queryRows ⟨fun _ t => t, fun _ => "", List.reverse⟩
        (Context.Query ⟨"GET", "HTTP/1.1", "/foo", "", "", "", [],
          [("foo", "qux"), ("bar", "baz"), ("foo", "bar")], 200, false, false, []⟩) =
      queryRows (testEnv narrowWidth (fun _ => ""))
        (Context.Query ⟨"GET", "HTTP/1.1", "/foo", "", "", "", [],
          [("foo", "bar"), ("bar", "baz"), ("foo", "qux")], 200, false, false, []⟩) ∧
    queryRows (testEnv narrowWidth (fun _ => ""))
        (Context.Query ⟨"GET", "HTTP/1.1", "/foo", "", "", "", [],
          [("foo", "bar"), ("bar", "baz"), ("foo", "qux")], 200, false, false, []⟩) =
      [["  bar", "  baz"], ["  foo", "  bar\n  qux"]] :=
  ⟨(RenderTerminal_query_table (testEnv narrowWidth (fun _ => ""))
      (fun l => List.Perm.refl l)
      ⟨none, "", ⟨"GET", "HTTP/1.1", "/foo", "", "", "", [],
        [("foo", "bar"), ("bar", "baz"), ("foo", "qux")], 200, false, false, []⟩⟩).2.2
      ⟨fun _ t => t, fun _ => "", List.reverse⟩
      ⟨none, "", ⟨"GET", "HTTP/1.1", "/foo", "", "", "", [],
        [("foo", "qux"), ("bar", "baz"), ("foo", "bar")], 200, false, false, []⟩⟩
      (fun l => List.reverse_perm l) (by decide),
   by decide⟩

/-- C10: without metrics the terminal rendering has no latency part and `RenderJSON`
has neither a `start` entry nor an `httpRequest.latency` entry; with metrics the
terminal rendering has the styled ` (<latency>)` right after the status line,
`start` is the start time of the metrics and `httpRequest.latency` is the text of the
latency. A latency of one second gives ` (1s)` and `1s`. -/
theorem metrics_rendering (env : Env) (report : reportMessage) :
    (report.metrics = none →
      RenderTerminal env report =
        statusLine env report ++ queryMessage env report ++ errorMessage env report ++
          "\n\n" ∧
      mapGet (RenderJSON report) "start" = none ∧
      httpRequestField (RenderJSON report) "latency" = none) ∧
    (∀ m, report.metrics = some m →
      RenderTerminal env report =
        statusLine env report ++
          env.render { NewStyle with faint := true }
            (" (" ++ Duration.String m.Latency ++ ")") ++
          queryMessage env report ++ errorMessage env report ++ "\n\n" ∧
      mapGet (RenderJSON report) "start" = some (Value.time m.StartedAt) ∧
      httpRequestField (RenderJSON report) "latency" =
        some (Field.str (Duration.String m.Latency))) ∧
    Duration.String 1000000000 = "1s" ∧
    (∀ width table, (testEnv width table).render { NewStyle with faint := true }
      (" (" ++ Duration.String 1000000000 ++ ")") = " (1s)") := by
  refine ⟨?_, ?_, by decide, ?_⟩
  rotate_left 2
  · intro width table
    show renderPlain width _ _ = _
    rw [renderPlain_oneLine _ _ _ (by decide)]
    decide
  · intro hm
    refine ⟨?_, ?_, ?_⟩
    · rw [RenderTerminal_parts]
      have : latencyMessage env report = "" := by simp [latencyMessage, hm]
      rw [this, String.append_empty]
    · rw [RenderJSON_get report "start" (by decide), hm]
      rfl
    · unfold httpRequestField
      rw [RenderJSON_get report "httpRequest" (by decide), hm]
      rfl
  · intro m hm
    refine ⟨?_, ?_, ?_⟩
    · rw [RenderTerminal_parts]
      have : latencyMessage env report = env.render { NewStyle with faint := true }
          (" (" ++ Duration.String m.Latency ++ ")") := by simp [latencyMessage, hm]
      rw [this]
    · rw [RenderJSON_get report "start" (by decide), hm]
      rfl
    · unfold httpRequestField
      rw [RenderJSON_get report "httpRequest" (by decide), hm]
      rfl

/-! ## Error lines, layout and glyph of the terminal rendering -/

theorem foldl_append_eq_join (f : String → String) (l : List String) (a : String) :
    l.foldl (fun acc e => acc ++ f e) a = a ++ String.join (l.map f) := by
  induction l generalizing a with
  | nil => simp [String.join]
  | cons x xs ih =>
    simp only [List.foldl_cons, List.map_cons]
    rw [ih]
    have hj : String.join (f x :: xs.map f) = f x ++ String.join (xs.map f) := by
      simp only [String.join, List.foldl_cons]
      have hgen : ∀ (ys : List String) (b c : String),
          ys.foldl (fun r s => r ++ s) (b ++ c) = b ++ ys.foldl (fun r s => r ++ s) c := by
        intro ys
        induction ys with
        | nil => intro b c; rfl
        | cons y ys ihy =>
          intro b c
          simp only [List.foldl_cons]
          rw [String.append_assoc, ihy]
      have := hgen (xs.map f) (f x) ""
      simpa using this
    rw [hj, String.append_assoc]

/-- The error part of the terminal rendering: one styled line for each message. -/
theorem errorMessage_eq (env : Env) (report : reportMessage) :
    errorMessage env report =
      String.join (report.ginC.ErrorsErrors.map
        (fun msg => "\n" ++ env.render errorStyle ("- " ++ msg))) := by
  exact (foldl_append_eq_join (fun msg => "\n" ++ env.render errorStyle ("- " ++ msg))
    report.ginC.ErrorsErrors "").trans (String.empty_append _)

/-- The `severity` entry of `RenderJSON`. -/
theorem RenderJSON_severity_eq (report : reportMessage) :
    mapGet (RenderJSON report) "severity" =
      some (Value.str (severityOf report.ginC.status)) := by
  rw [RenderJSON_get report "severity" (by decide)]
  have h : (if report.ginC.status > 499 then "ERROR"
      else if report.ginC.status > 399 then "WARNING" else "INFO") =
      severityOf report.ginC.status := by
    unfold severityOf
    by_cases h1 : report.ginC.status > 499
    · rw [if_pos h1, if_pos (by omega)]
    · by_cases h2 : report.ginC.status > 399
      · rw [if_neg h1, if_pos h2, if_neg (by omega), if_pos (by omega)]
      · rw [if_neg h1, if_neg h2, if_neg (by omega), if_neg (by omega)]
  cases report.metrics <;> simp [mapGet, List.lookup, h]

/-- The prefix chosen by `RenderTerminal` is the glyph of the status and a blank. -/
theorem colorAndPrefix_snd (s : Int) : (colorAndPrefix s).2 = glyph s ++ " " := by
  unfold colorAndPrefix glyph
  by_cases h1 : s > 499
  · rw [if_pos h1, if_pos (by omega)]; decide
  · by_cases h2 : s > 399
    · rw [if_neg h1, if_pos h2, if_neg (by omega), if_pos (by omega)]; decide
    · rw [if_neg h1, if_neg h2, if_neg (by omega), if_neg (by omega)]; decide

/-- C11, as the code has it: for every list of accumulated error messages the terminal
rendering has, after the query part, one part for each message, in the order of
accumulation: a newline and the rendering of `- <message>` in the style of left margin
2. On a terminal without colours, for a message of one line without tabs, that is the
newline, two blanks, `- ` and the message. The `errors` entry of `RenderJSON` is the
same list in the same order. -/
theorem error_lines_in_order (env : Env) (report : reportMessage) :
    RenderTerminal env report =
      statusLine env report ++ latencyMessage env report ++ queryMessage env report ++
        String.join (report.ginC.ErrorsErrors.map
          (fun msg => "\n" ++ env.render errorStyle ("- " ++ msg))) ++ "\n\n" ∧
    errorStyle.marginLeft = 2 ∧
    (report.ginC.ErrorsErrors.map
      (fun msg => "\n" ++ env.render errorStyle ("- " ++ msg))).length =
        report.ginC.ErrorsErrors.length ∧
    (∀ width table msg, oneLine msg →
      "\n" ++ (testEnv width table).render errorStyle ("- " ++ msg) = "\n  - " ++ msg) ∧
    (∀ width table, (∀ msg ∈ report.ginC.ErrorsErrors, oneLine msg) →
      errorMessage (testEnv width table) report =
        String.join (report.ginC.ErrorsErrors.map (fun msg => "\n  - " ++ msg))) ∧
    mapGet (RenderJSON report) "errors" = some (Value.strs report.ginC.ErrorsErrors) ∧
    RenderTerminal (testEnv narrowWidth (fun _ => ""))
        ⟨none, "", ⟨"GET", "HTTP/1.1", "/foo", "127.0.0.1", "application/json", "Netscape",
          [], [], 500, false, false,
          [GoError.plain "if you pour water on a rock",
           GoError.plain "but if you pour water on a rock"]⟩⟩ =
      "👶🔪🩸 500 [GET /foo]\n  - if you pour water on a rock\n" ++
        "  - but if you pour water on a rock\n\n" := by
  have hline : ∀ (width : List Char → Nat) (table : List (List String) → String)
      (msg : String), oneLine msg →
      "\n" ++ (testEnv width table).render errorStyle ("- " ++ msg) = "\n  - " ++ msg := by
    intro width table msg hmsg
    show "\n" ++ renderPlain width errorStyle ("- " ++ msg) = _
    rw [renderPlain_oneLine _ _ _ (oneLine_append (by decide) hmsg)]
    rfl
  refine ⟨?_, rfl, by simp, hline, ?_, ?_, by decide⟩
  · rw [RenderTerminal_parts, errorMessage_eq]
  · intro width table hall
    rw [errorMessage_eq]
    congr 1
    apply List.map_congr_left
    intro msg hmsg
    exact hline width table msg (hall msg hmsg)
  · rw [RenderJSON_get report "errors" (by decide)]
    cases report.metrics <;> rfl

/-- C11 fails for a message with a tab or of several lines: without colours the tab of
`a<tab>b` comes out as four blanks, and of the two lines of a message the first is
filled up to the width of the second and the second is indented too, so what follows
`- ` is not the message text. -/
theorem error_lines_counterexample :
    errorMessage (testEnv narrowWidth (fun _ => ""))
        ⟨none, "", ⟨"GET", "HTTP/1.1", "/foo", "", "", "", [], [], 500, false, false,
          [GoError.plain "a\tb"]⟩⟩ = "\n  - a    b" ∧
    errorMessage (testEnv narrowWidth (fun _ => ""))
        ⟨none, "", ⟨"GET", "HTTP/1.1", "/foo", "", "", "", [], [], 500, false, false,
          [GoError.plain "a\tb"]⟩⟩ ≠ "\n  - a\tb" ∧
    errorMessage (testEnv narrowWidth (fun _ => ""))
        ⟨none, "", ⟨"GET", "HTTP/1.1", "/foo", "", "", "", [], [], 500, false, false,
          [GoError.plain "line1\nline2 longer"]⟩⟩ = "\n  - line1     \n  line2 longer" ∧
    errorMessage (testEnv narrowWidth (fun _ => ""))
        ⟨none, "", ⟨"GET", "HTTP/1.1", "/foo", "", "", "", [], [], 500, false, false,
          [GoError.plain "line1\nline2 longer"]⟩⟩ ≠ "\n  - line1\nline2 longer" := by
  refine ⟨by decide, by decide, by decide, by decide⟩

/-- C13: the glyph that opens the status line of `RenderTerminal` is the alarm glyph for
a status of 500 or more, the caution glyph for 400 to 499 and the check glyph otherwise,
and in each case the severity of `RenderJSON` for the same report is ERROR, WARNING or
INFO respectively. -/
theorem glyph_matches_severity (env : Env) (report : reportMessage) :
    (∃ color rest, RenderTerminal env report =
      env.render { NewStyle with foreground := some color, bold := true }
        (glyph report.ginC.status ++ " " ++ Itoa report.ginC.status) ++ rest) ∧
    (500 ≤ report.ginC.status →
      glyph report.ginC.status = "👶🔪🩸" ∧
      mapGet (RenderJSON report) "severity" = some (Value.str "ERROR")) ∧
    (400 ≤ report.ginC.status → report.ginC.status < 500 →
      glyph report.ginC.status = "⚠" ∧
      mapGet (RenderJSON report) "severity" = some (Value.str "WARNING")) ∧
    (report.ginC.status < 400 →
      glyph report.ginC.status = "✅" ∧
      mapGet (RenderJSON report) "severity" = some (Value.str "INFO")) := by
  refine ⟨?_, ?_, ?_, ?_⟩
  · refine ⟨(colorAndPrefix report.ginC.status).1,
      env.render { NewStyle with foreground := some (colorAndPrefix report.ginC.status).1 }
          (" [" ++ report.ginC.Method ++ " " ++ report.ginC.fullPath ++ "]") ++
        latencyMessage env report ++ queryMessage env report ++ errorMessage env report ++
        "\n\n", ?_⟩
    rw [RenderTerminal_parts]
    unfold statusLine
    rw [colorAndPrefix_snd]
    simp only [String.append_assoc]
  · intro h
    rw [RenderJSON_severity_eq]
    unfold glyph severityOf
    rw [if_pos h, if_pos h]
    exact ⟨rfl, rfl⟩
  · intro h1 h2
    rw [RenderJSON_severity_eq]
    unfold glyph severityOf
    rw [if_neg (by omega), if_pos h1, if_neg (by omega), if_pos h1]
    exact ⟨rfl, rfl⟩
  · intro h
    rw [RenderJSON_severity_eq]
    unfold glyph severityOf
    rw [if_neg (by omega), if_neg (by omega), if_neg (by omega), if_neg (by omega)]
    exact ⟨rfl, rfl⟩

/-! ## Keys of the structured rendering -/

/-- C14: without metrics and with an empty project identifier, the keys of `RenderJSON`
are exactly `severity`, `ip`, `contentType`, `errors`, `query`, `httpRequest` and the
keys of the nested `httpRequest` are exactly `requestMethod`, `requestUrl`, `status`,
`userAgent`, `remoteIp`, `protocol`; `requestUrl` is the route path whatever the query
string, `status` is the status code as an integer, and `ip` is `httpRequest.remoteIp`. -/
theorem RenderJSON_keys (ctx : Context) :
    ((RenderJSON ⟨none, "", ctx⟩).map Prod.fst).Nodup ∧
    (∀ k, k ∈ (RenderJSON ⟨none, "", ctx⟩).map Prod.fst ↔
      k ∈ ["severity", "ip", "contentType", "errors", "query", "httpRequest"]) ∧
    (∃ m, mapGet (RenderJSON ⟨none, "", ctx⟩) "httpRequest" = some (Value.object m) ∧
      (m.map Prod.fst).Nodup ∧
      (∀ k, k ∈ m.map Prod.fst ↔
        k ∈ ["requestMethod", "requestUrl", "status", "userAgent", "remoteIp",
          "protocol"])) ∧
    httpRequestField (RenderJSON ⟨none, "", ctx⟩) "requestUrl" =
      some (Field.str ctx.fullPath) ∧
    (∀ pairs, httpRequestField (RenderJSON ⟨none, "", { ctx with rawQuery := pairs }⟩)
      "requestUrl" = some (Field.str ctx.fullPath)) ∧
    httpRequestField (RenderJSON ⟨none, "", ctx⟩) "status" = some (Field.int ctx.status) ∧
    (∃ ip, mapGet (RenderJSON ⟨none, "", ctx⟩) "ip" = some (Value.str ip) ∧
      httpRequestField (RenderJSON ⟨none, "", ctx⟩) "remoteIp" = some (Field.str ip)) := by
  have hout : ∀ c : Context, RenderJSON ⟨none, "", c⟩ =
      [ ("httpRequest", Value.object
          [ ("requestMethod", Field.str c.Method),
            ("requestUrl", Field.str c.fullPath),
            ("status", Field.int c.status),
            ("userAgent", Field.str c.userAgent),
            ("remoteIp", Field.str c.clientIP),
            ("protocol", Field.str c.Proto) ]),
        ("severity", Value.str
          (if c.status > 499 then "ERROR"
           else if c.status > 399 then "WARNING" else "INFO")),
        ("ip", Value.str c.clientIP),
        ("contentType", Value.str c.contentType),
        ("errors", Value.strs c.ErrorsErrors),
        ("query", Value.values c.Query) ] := by
    intro c
    simp [RenderJSON]
  refine ⟨?_, ?_, ?_, ?_, ?_, ?_, ?_⟩
  · rw [hout]
    simp only [List.map_cons, List.map_nil]
    decide
  · intro k
    rw [hout]
    simp only [List.map_cons, List.map_nil, List.mem_cons, List.mem_singleton,
      List.not_mem_nil, or_false]
    tauto
  · refine ⟨_, by rw [hout]; rfl, ?_, ?_⟩
    · simp only [List.map_cons, List.map_nil]
      decide
    intro k
    simp only [List.map_cons, List.map_nil, List.mem_cons, List.mem_singleton,
      List.not_mem_nil, or_false]
  · rw [hout]; rfl
  · intro pairs
    rw [hout]; rfl
  · rw [hout]; rfl
  · exact ⟨ctx.clientIP, by rw [hout]; rfl, by rw [hout]; rfl⟩

/-! ## The translation never reports a failure as success -/

/-- C17: `GRPCToHTTPCode c` is 200 exactly when `c` is `OK`, and for every other code
the result lies between 400 and 599. -/
theorem GRPCToHTTPCode_success_iff (c : Code) :
    (GRPCToHTTPCode c = 200 ↔ c = codes.OK) ∧
    (c ≠ codes.OK → 400 ≤ GRPCToHTTPCode c ∧ GRPCToHTTPCode c ≤ 599) := by
  refine ⟨?_, fun h => GRPCToHTTPCode_error_range c h⟩
  constructor
  · intro h
    by_contra hne
    have := GRPCToHTTPCode_error_range c hne
    rw [h] at this
    exact absurd this.1 (by decide)
  · intro h
    rw [h]
    decide

/-! ## Rendering calls leave the report alone -/

theorem sortStrings_idem (l : List String) : sortStrings (sortStrings l) = sortStrings l :=
  sortStrings_congr (sortStrings_perm l)

/-- The rows the loop adds are those of `queryRows`, although the loop sorts the value
slices of its local map in place as it goes. -/
theorem queryLoop_rows (query0 : Values) :
    ∀ (keys : List String) (query : Values) (rows : List (List String)),
      (∀ k, sortStrings ((mapGet query k).getD []) =
        sortStrings ((mapGet query0 k).getD [])) →
      (queryLoop keys query rows).2 =
        rows ++ keys.map (fun key =>
          ["  " ++ key, "  " ++ Join (sortStrings ((mapGet query0 key).getD [])) "\n  "]) := by
  intro keys
  induction keys with
  | nil => intro query rows _; simp [queryLoop]
  | cons key keys ih =>
    intro query rows hq
    simp only [queryLoop, List.map_cons]
    rw [ih]
    · rw [hq key]
      simp
    · intro k
      cases hg : mapGet query key with
      | none => exact hq k
      | some vs =>
        simp only []
        rw [mapGet_mapSet]
        by_cases hk : k = key
        · subst hk
          rw [if_pos rfl, ← hq k, hg]
          simp only [Option.getD_some]
          exact sortStrings_idem vs
        · rw [if_neg hk]
          exact hq k

theorem queryLoop_eq_queryRows (env : Env) (query : Values) :
    (queryLoop (sortStrings (Keys env query)) query []).2 = queryRows env query := by
  rw [queryLoop_rows query _ query [] (fun _ => rfl)]
  simp [queryRows]

/-- A call of `RenderTerminal` returns what the function computes and leaves the
report as it found it. -/
theorem RenderTerminalRun_eq (env : Env) (report : reportMessage) :
    RenderTerminalRun env report = (RenderTerminal env report, report) := by
  unfold RenderTerminalRun RenderTerminal queryMessage
  simp only [queryLoop_eq_queryRows]

/-- The terminal rendering does not depend on the order of map iteration. -/
theorem RenderTerminal_order_irrelevant (env : Env) (order : List String → List String)
    (horder : ∀ l, (order l).Perm l) (report : reportMessage) :
    RenderTerminal { env with mapOrder := order } report =
      RenderTerminal { env with mapOrder := fun l => l } report := by
  rw [RenderTerminal_parts, RenderTerminal_parts]
  have hq : queryMessage { env with mapOrder := order } report =
      queryMessage { env with mapOrder := fun l => l } report := by
    have h1 := queryRows_eq { env with mapOrder := order } horder report.ginC
    have h2 := queryRows_eq { env with mapOrder := fun l => l }
      (fun l => List.Perm.refl l) report.ginC
    unfold queryMessage
    simp only [h1, h2]
  rw [hq]
  rfl

theorem runCalls_eq (env : Env) (report : reportMessage) :
    ∀ calls : List ((List String → List String) × Call),
      (∀ oc ∈ calls, ∀ l, (oc.1 l).Perm l) →
      runCalls env calls report =
        (calls.map (fun oc =>
          match oc.2 with
          | Call.terminal =>
            Rendering.text (RenderTerminal { env with mapOrder := fun l => l } report)
          | Call.json => Rendering.fields (RenderJSON report)), report) := by
  intro calls
  induction calls with
  | nil => intro _; rfl
  | cons oc rest ih =>
    intro h
    obtain ⟨order, c⟩ := oc
    have hrest : ∀ oc ∈ rest, ∀ l, (oc.1 l).Perm l :=
      fun oc hoc => h oc (List.mem_cons_of_mem _ hoc)
    have horder : ∀ l, (order l).Perm l := h (order, c) (List.mem_cons_self _ _)
    cases c with
    | terminal =>
      simp only [runCalls, callRendering, RenderTerminalRun_eq, List.map_cons]
      rw [ih hrest, RenderTerminal_order_irrelevant env order horder]
    | json =>
      simp only [runCalls, callRendering, RenderJSONRun, List.map_cons]
      rw [ih hrest]

/-- C15: in every sequence of rendering calls on a report, in whatever order and
however interleaved, and whichever way the runtime iterates maps during each call,
every call of `RenderTerminal` returns one and the same string, every call of
`RenderJSON` one and the same map, and the report is afterwards as it was before. -/
theorem rendering_idempotent (env : Env) (report : reportMessage)
    (calls : List ((List String → List String) × Call))
    (horders : ∀ oc ∈ calls, ∀ l, (oc.1 l).Perm l) :
    (runCalls env calls report).2 = report ∧
    (runCalls env calls report).1.length = calls.length ∧
    (∀ (i : Nat) (order : List String → List String), calls[i]? = some (order, Call.terminal) →
      (runCalls env calls report).1[i]? =
        some (Rendering.text
          (RenderTerminal { env with mapOrder := fun l => l } report))) ∧
    (∀ (i : Nat) (order : List String → List String), calls[i]? = some (order, Call.json) →
      (runCalls env calls report).1[i]? = some (Rendering.fields (RenderJSON report))) ∧
    (∀ order, (∀ l, (order l).Perm l) →
      runCalls env [(order, Call.terminal), (order, Call.terminal)] report =
        runCalls env [(fun l => l, Call.terminal), (fun l => l, Call.terminal)] report) := by
  have hrun := runCalls_eq env report calls horders
  refine ⟨by rw [hrun], by rw [hrun]; simp, ?_, ?_, ?_⟩
  · intro i order h
    rw [hrun]
    simp only [List.getElem?_map, h, Option.map_some']
  · intro i order h
    rw [hrun]
    simp only [List.getElem?_map, h, Option.map_some']
  · intro order horder
    rw [runCalls_eq env report _ (by
        intro oc hoc
        simp only [List.mem_cons, List.mem_singleton, List.not_mem_nil, or_false] at hoc
        rcases hoc with h | h <;> (rw [h]; exact horder)),
      runCalls_eq env report _ (by
        intro oc hoc
        simp only [List.mem_cons, List.mem_singleton, List.not_mem_nil, or_false] at hoc
        rcases hoc with h | h <;> (rw [h]; exact fun l => List.Perm.refl l))]
    rfl

/-- The request `/foo?foo=bar&bar=baz&foo=qux` of the package's tests, rendered four
times with the map iterated forwards and backwards: the report is unchanged and there
are four results. -/
theorem rendering_idempotent_witness :
    (runCalls (testEnv narrowWidth (fun _ => ""))
        [(List.reverse, Call.terminal), (fun l => l, Call.json),
          (fun l => l, Call.terminal), (List.reverse, Call.json)]
        ⟨none, "", ⟨"GET", "HTTP/1.1", "/foo", "", "", "", [],
          [("foo", "bar"), ("bar", "baz"), ("foo", "qux")], 200, false, false, []⟩⟩).2 =
      ⟨none, "", ⟨"GET", "HTTP/1.1", "/foo", "", "", "", [],
          [("foo", "bar"), ("bar", "baz"), ("foo", "qux")], 200, false, false, []⟩⟩ ∧
    (runCalls (testEnv narrowWidth (fun _ => ""))
        [(List.reverse, Call.terminal), (fun l => l, Call.json),
          (fun l => l, Call.terminal), (List.reverse, Call.json)]
        ⟨none, "", ⟨"GET", "HTTP/1.1", "/foo", "", "", "", [],
          [("foo", "bar"), ("bar", "baz"), ("foo", "qux")], 200, false, false, []⟩⟩).1.length =
      4 :=
  have h := rendering_idempotent (testEnv narrowWidth (fun _ => ""))
    ⟨none, "", ⟨"GET", "HTTP/1.1", "/foo", "", "", "", [],
      [("foo", "bar"), ("bar", "baz"), ("foo", "qux")], 200, false, false, []⟩⟩
    [(List.reverse, Call.terminal), (fun l => l, Call.json),
      (fun l => l, Call.terminal), (List.reverse, Call.json)]
    (by
      intro oc hoc
      simp only [List.mem_cons, List.mem_singleton, List.not_mem_nil, or_false] at hoc
      rcases hoc with h | h | h | h
      · rw [h]; exact fun l => List.reverse_perm l
      · rw [h]; exact fun l => List.Perm.refl l
      · rw [h]; exact fun l => List.Perm.refl l
      · rw [h]; exact fun l => List.reverse_perm l)
  ⟨h.1, h.2.1⟩

/-- C16: the `query` entry of `RenderJSON` is the query map of the request, each key
with its values in the order of the URL, and it is the same after a call of
`RenderTerminal` on the same report, which sorts the values only in its own copy of
the map: neither rendering changes the report. For `/foo?foo=qux&foo=bar` the entry is
`foo: [qux, bar]` before and after, while the table row lists `bar` before `qux`. -/
theorem query_field_unmodified (env : Env) (report : reportMessage) :
    mapGet (RenderJSON report) "query" = some (Value.values report.ginC.Query) ∧
    (report.ginC.Query.map Prod.fst).Nodup ∧
    (∀ k, k ∈ report.ginC.Query.map Prod.fst ↔ ∃ v, (k, v) ∈ report.ginC.rawQuery) ∧
    (∀ k, (mapGet report.ginC.Query k).getD [] = valuesInURL report.ginC.rawQuery k) ∧
    (RenderTerminalRun env report).2 = report ∧
    (RenderJSONRun report).2 = report ∧
    mapGet (RenderJSON (RenderTerminalRun env report).2) "query" =
      mapGet (RenderJSON report) "query" ∧
    mapGet (RenderJSON (RenderJSONRun (RenderTerminalRun env report).2).2) "query" =
      mapGet (RenderJSON report) "query" ∧
    mapGet (RenderJSON ⟨none, "", ⟨"GET", "HTTP/1.1", "/foo", "", "", "", [],
        [("foo", "qux"), ("foo", "bar")], 200, false, false, []⟩⟩) "query" =
      some (Value.values [("foo", ["qux", "bar"])]) ∧
    mapGet (RenderJSON (RenderTerminalRun (testEnv narrowWidth (fun _ => ""))
        ⟨none, "", ⟨"GET", "HTTP/1.1", "/foo", "", "", "", [],
          [("foo", "qux"), ("foo", "bar")], 200, false, false, []⟩⟩).2) "query" =
      some (Value.values [("foo", ["qux", "bar"])]) ∧
    queryLoop (sortStrings (Keys (testEnv narrowWidth (fun _ => "")) [("foo", ["qux", "bar"])]))
        [("foo", ["qux", "bar"])] [] =
      ([("foo", ["bar", "qux"])], [["  foo", "  bar\n  qux"]]) := by
  have hq : mapGet (RenderJSON report) "query" = some (Value.values report.ginC.Query) := by
    rw [RenderJSON_get report "query" (by decide)]
    cases report.metrics <;> rfl
  have ht : (RenderTerminalRun env report).2 = report := by
    rw [RenderTerminalRun_eq]
  refine ⟨hq, Query_keys_nodup _, Query_keys_mem _, Query_get _, ht, rfl, by rw [ht], ?_,
    by decide, by decide, by decide⟩
  show mapGet (RenderJSON (RenderTerminalRun env report).2) "query" = _
  rw [ht]

/-! ## A handled failure is never logged as INFO -/

theorem FromError_fst_some (err : GoError) :
    ∃ st, (status.FromError (some err)).1 = some st := by
  cases err with
  | plain msg => exact ⟨_, rfl⟩
  | grpc s => exact ⟨_, rfl⟩
  | nilStatus msg => exact ⟨_, rfl⟩
  | wrap msg inner =>
    simp only [status.FromError]
    cases h : inner.asGRPCStatus with
    | none => exact ⟨_, rfl⟩
    | some o =>
      cases o with
      | none => exact ⟨_, rfl⟩
      | some s => exact ⟨_, rfl⟩
  | gin inner =>
    simp only [status.FromError]
    cases h : inner.asGRPCStatus with
    | none => exact ⟨_, rfl⟩
    | some o =>
      cases o with
      | none => exact ⟨_, rfl⟩
      | some s => exact ⟨_, rfl⟩

/-- The level the middleware logs at, from the status the chain leaves. -/
theorem ReportMiddleware_level (projectID : String) (next : Context → Context)
    (start : Time) (since : Duration) (ctx : Context) (h : 400 ≤ (next ctx).status) :
    (ReportMiddleware projectID next start since ctx).2 =
        [Event.Next, Event.Log Level.LevelWarning
          (NewReport (some ⟨since, start⟩) projectID (next ctx))] ∨
    (ReportMiddleware projectID next start since ctx).2 =
        [Event.Next, Event.Log Level.LevelError
          (NewReport (some ⟨since, start⟩) projectID (next ctx))] := by
  unfold ReportMiddleware
  by_cases h5 : (next ctx).status ≥ 500
  · right
    simp only [h5, if_true]
    rfl
  · left
    have h4 : (next ctx).status ≥ 400 := h
    simp only [h5, h4, if_true, if_false]
    rfl

/-- C18, as the code has it: for every exchange whose response is not written yet and
every non-nil error that carries no RPC status, or a status whose code is not `OK`,
`HandleGRPCError` aborts the exchange with a status of at least 400; for an exchange of
that status the severity of `RenderJSON` is WARNING or ERROR, and so is the level at
which `ReportMiddleware` logs when the chain leaves the exchange so. -/
theorem handled_failure_not_info (ctx : Context) (err : GoError)
    (hw : ctx.written = false)
    (h : (status.FromError (some err)).2 = false ∨
      status.Code (status.FromError (some err)).1 ≠ codes.OK) :
    ∃ ctx', HandleGRPCError ctx (some err) = Outcome.returned true ctx' ∧
      ctx'.aborted = true ∧
      400 ≤ ctx'.status ∧
      (∀ metrics projectID,
        mapGet (RenderJSON ⟨metrics, projectID, ctx'⟩) "severity" =
            some (Value.str "WARNING") ∨
        mapGet (RenderJSON ⟨metrics, projectID, ctx'⟩) "severity" =
            some (Value.str "ERROR")) ∧
      (∀ projectID next start since ctx0, next ctx0 = ctx' →
        ∃ report,
          (ReportMiddleware projectID next start since ctx0).2 =
              [Event.Next, Event.Log Level.LevelWarning report] ∨
          (ReportMiddleware projectID next start since ctx0).2 =
              [Event.Next, Event.Log Level.LevelError report]) := by
  have hsev : ∀ c : Context, 400 ≤ c.status → ∀ metrics projectID,
      mapGet (RenderJSON ⟨metrics, projectID, c⟩) "severity" = some (Value.str "WARNING") ∨
      mapGet (RenderJSON ⟨metrics, projectID, c⟩) "severity" = some (Value.str "ERROR") := by
    intro c hc metrics projectID
    rw [RenderJSON_severity_eq]
    unfold severityOf
    by_cases h5 : c.status ≥ 500
    · right; simp only [h5, if_true]
    · left
      have h4 : c.status ≥ 400 := hc
      simp only [h5, h4, if_true, if_false]
  have hlvl : ∀ c : Context, 400 ≤ c.status →
      ∀ projectID next start since ctx0, next ctx0 = c →
        ∃ report,
          (ReportMiddleware projectID next start since ctx0).2 =
              [Event.Next, Event.Log Level.LevelWarning report] ∨
          (ReportMiddleware projectID next start since ctx0).2 =
              [Event.Next, Event.Log Level.LevelError report] := by
    intro c hc projectID next start since ctx0 hn
    refine ⟨NewReport (some ⟨since, start⟩) projectID (next ctx0), ?_⟩
    exact ReportMiddleware_level projectID next start since ctx0 (by rw [hn]; exact hc)
  obtain ⟨st, hst⟩ := FromError_fst_some err
  cases hok : (status.FromError (some err)).2 with
  | false =>
    have hfe : status.FromError (some err) = (some st, false) := Prod.ext hst hok
    have h500 : (400 : Int) ≤ 500 := by decide
    have hpos : (0 : Int) < 500 := by decide
    refine ⟨{ ctx with
        status := 500
        written := true
        aborted := true
        Errors := ctx.Errors ++ [match err.asGinError with
          | some inner => inner
          | none => err] }, ?_, rfl, h500, ?_, ?_⟩
    · simp [HandleGRPCError, hfe, Context.AbortWithError,
        AbortWithStatus_fresh ctx _ hw hpos, Context.Error, http.StatusInternalServerError]
    · exact hsev _ h500
    · exact hlvl _ h500
  | true =>
    have hfe : status.FromError (some err) = (some st, true) := Prod.ext hst hok
    have hcode : st.code ≠ codes.OK := by
      rcases h with h | h
      · rw [hok] at h; cases h
      · rw [hst] at h; exact h
    have hrange := GRPCToHTTPCode_error_range st.code hcode
    have herr : status.Err (some st) = some (GoError.grpc st) := by
      simp [status.Err, hcode]
    refine ⟨{ ctx with
        status := GRPCToHTTPCode st.code
        written := true
        aborted := true
        Errors := ctx.Errors ++ [GoError.grpc st] }, ?_, rfl, hrange.1, ?_, ?_⟩
    · simp [HandleGRPCError, hfe, herr, status.Code, Context.AbortWithError,
        AbortWithStatus_fresh ctx _ hw (GRPCToHTTPCode_pos st.code), Context.Error,
        GoError.asGinError]
    · exact hsev _ hrange.1
    · exact hlvl _ hrange.1

/-- A `NotFound` failure on the exchange of the package's tests: aborted with 404, which
`RenderJSON` reports as WARNING. -/
theorem handled_failure_not_info_witness :
    ∃ ctx', HandleGRPCError
        ⟨"GET", "HTTP/1.1", "", "", "", "", [], [], 200, false, false, []⟩
        (some (GoError.grpc ⟨codes.NotFound, "foo"⟩)) = Outcome.returned true ctx' ∧
      400 ≤ ctx'.status :=
  match handled_failure_not_info
      ⟨"GET", "HTTP/1.1", "", "", "", "", [], [], 200, false, false, []⟩
      (GoError.grpc ⟨codes.NotFound, "foo"⟩) rfl (Or.inr (by decide)) with
  | ⟨ctx', h1, _, h3, _⟩ => ⟨ctx', h1, h3⟩

/-- C18 fails on an exchange whose response is already written: with status 200
written, a `NotFound` failure is handled and the exchange aborted, but the status stays
200, the severity of `RenderJSON` is INFO and `ReportMiddleware` logs at INFO. -/
theorem handled_failure_counterexample :
    status.Code (status.FromError (some (GoError.grpc ⟨codes.NotFound, "foo"⟩))).1 ≠
      codes.OK ∧
    HandleGRPCError
        ⟨"GET", "HTTP/1.1", "", "", "", "", [], [], 200, true, false, []⟩
        (some (GoError.grpc ⟨codes.NotFound, "foo"⟩)) =
      Outcome.returned true
        ⟨"GET", "HTTP/1.1", "", "", "", "", [], [], 200, true, true,
          [GoError.grpc ⟨codes.NotFound, "foo"⟩]⟩ ∧
    mapGet (RenderJSON ⟨none, "",
        ⟨"GET", "HTTP/1.1", "", "", "", "", [], [], 200, true, true,
          [GoError.grpc ⟨codes.NotFound, "foo"⟩]⟩⟩) "severity" = some (Value.str "INFO") ∧
    (ReportMiddleware "" (fun _ =>
        ⟨"GET", "HTTP/1.1", "", "", "", "", [], [], 200, true, true,
          [GoError.grpc ⟨codes.NotFound, "foo"⟩]⟩) ⟨0⟩ 0
        ⟨"GET", "HTTP/1.1", "", "", "", "", [], [], 200, false, false, []⟩).2 =
      [Event.Next, Event.Log Level.LevelInfo
        (NewReport (some ⟨0, ⟨0⟩⟩) ""
          ⟨"GET", "HTTP/1.1", "", "", "", "", [], [], 200, true, true,
            [GoError.grpc ⟨codes.NotFound, "foo"⟩]⟩)] := by
  refine ⟨by decide, by decide, by decide, by decide⟩

end Ahttp
